import Mathlib

/-!
Shallow embedding of `src/CalendarDate.ts` (and its second source variant
`src/unnamed/part_000`), a Gregorian calendar-date value type whose state is a
single ordinal integer `value` (days since January 1 of year 0, i.e. 1 BCE),
valid over the closed range [366, 3652424].

Modelling conventions:
* JavaScript numbers appearing in the date kernel are integers throughout the
  valid domain; they are embedded as `Int` (or `Nat` for the stored ordinal,
  which the constructor confines to [366, 3652424]).
* JS `x | 0` applied to an integer-valued float truncates toward zero; on the
  integer quotients appearing here it is embedded as `Int.tdiv` (or `Nat` `/`
  for non-negative operands).
* The `year` getter divides by the floats `36525` and `365.25`.  For every
  value in the supported range the truncated float division coincides with
  exact rational floor division: the operands are exact doubles (< 2^24), the
  quotient is correctly rounded with error < 2^-40, and a non-integral exact
  quotient `x / 365.25 = 4x/1461` keeps distance >= 1/1461 from every integer
  (resp. 1/36525 for `v / 36525`), so rounding never crosses an integer
  boundary.  The embedding therefore uses `(4 * x) / 1461` and `v / 36525` in
  exact integer arithmetic.
* JS `NaN` (from out-of-range array reads such as `MONTH_SUMS_NORMAL_YEAR[0]`)
  is embedded as `none : Option Int`; `NaN` fails both `<` and `>` comparisons
  in the range check of the constructor and is then rejected by the
  `Number.isInteger` test, which the embedding mirrors.
* Thrown exceptions become `Except DateError`.
-/

/-- Error conditions raised by the source: `Day out of range.`,
`Date value (...) out of range.`, `Non-integer date value.` and
`Date string not in YYYY-MM-DD or YYYYMMDD format`. -/
inductive DateError where
  | dayOutOfRange
  | valueOutOfRange
  | nonIntegerValue
  | parseFormat
deriving DecidableEq

/-- Embeds `CalendarDate.isLeapYear`: `(year % 4 === 0) && (year % 100 !== 0 || year % 400 === 0)`.
JS `%` is the truncated remainder; for the `=== 0` tests it agrees with `Int.emod`,
since both vanish exactly on multiples. -/
def isLeapYear (year : Int) : Bool :=
  year % 4 == 0 && (year % 100 != 0 || year % 400 == 0)

/-- Embeds `optimizedDaysInMonth`: `(month & 1) === (month >> 3) ? 30 : 31`.
On two's-complement int32 values, `month & 1` is `month.emod 2` and the
arithmetic shift `month >> 3` is `month.fdiv 8`. -/
def optimizedDaysInMonth (month : Int) : Int :=
  if month.emod 2 == month.fdiv 8 then 30 else 31

/-- Embeds `CalendarDate.daysInMonth`. -/
def daysInMonth (year month : Int) : Int :=
  if month == 2 then (if isLeapYear year then 29 else 28)
  else optimizedDaysInMonth month

/-- Embeds the array `MONTH_SUMS_NORMAL_YEAR` (index 0 holds `NaN`). -/
def MONTH_SUMS_NORMAL_YEAR : List (Option Int) :=
  [none, some 0, some 31, some 59, some 90, some 120, some 151, some 181,
   some 212, some 243, some 273, some 304, some 334]

/-- Embeds the JS array read `MONTH_SUMS_NORMAL_YEAR[month]`: an index outside
the array (or the `NaN` entry at 0) yields `undefined`/`NaN`, embedded as `none`. -/
def monthSumLookup (month : Int) : Option Int :=
  if 0 ≤ month ∧ month < 13 then MONTH_SUMS_NORMAL_YEAR.getD month.toNat none
  else none

/-- Embeds `tripletToDaysValue`.  The `Option Int` in the result models a `NaN`
days-value (month index outside 1..12) flowing to the constructor. -/
def tripletToDaysValue (year month day : Int) : Except DateError (Option Int) :=
  if day ≤ 0 ∨ day > daysInMonth year month then .error .dayOutOfRange
  else
    match monthSumLookup month with
    | none => .ok none
    | some ms =>
      let base := year * 365 + (year + 3).tdiv 4 - (year + 99).tdiv 100
        + (year + 399).tdiv 400 + ms + day - 1
      .ok (some (if isLeapYear year ∧ month > 2 then base + 1 else base))

/-- Embeds the `CalendarDate` constructor: rejects values outside
[366, 3652424], then rejects non-integers (`NaN`, embedded as `none`). -/
def mkCalendarDate : Option Int → Except DateError Nat
  | none => .error .nonIntegerValue
  | some v => if v < 366 ∨ v > 3652424 then .error .valueOutOfRange else .ok v.toNat

/-- Embeds `CalendarDate.create`: `new CalendarDate(tripletToDaysValue(year, month, day))`. -/
def create (year month day : Int) : Except DateError Nat :=
  (tripletToDaysValue year month day).bind mkCalendarDate

/-- The days-before-January-1 expression
`(year * 365) + ((year + 3) / 4 | 0) - ((year + 99) / 100 | 0) + ((year + 399) / 400 | 0)`
that the source inlines in both the `year` computation context and the `month`
getter, specialized to the non-negative years produced by the accessors. -/
def gval (y : Nat) : Nat :=
  y * 365 + (y + 3) / 4 - (y + 99) / 100 + (y + 399) / 400

/-- Embeds the `year` getter:
`centuries = (value / 36525) | 0; (value + centuries - (centuries / 4 | 0)) / 365.25 | 0`,
with the float divisions replaced by exact floor division as justified in the
header comment (`x / 365.25` truncated equals `(4 * x) / 1461`). -/
def yearOf (v : Nat) : Nat :=
  let centuries := v / 36525
  (4 * (v + centuries - centuries / 4)) / 1461

/-- Nat form of `isLeapYear`, as applied to the non-negative year of a stored date. -/
def isLeapYearN (y : Nat) : Bool :=
  y % 4 == 0 && (y % 100 != 0 || y % 400 == 0)

/-- Embeds `MONTHS_CHAR_OFFSET = "A".charCodeAt(0) - 1`. -/
def MONTHS_CHAR_OFFSET : Nat := 'A'.toNat - 1

/-- Embeds `pre = "A".repeat(31) + "B".repeat(28)`. -/
def tablePre : List Char := List.replicate 31 'A' ++ List.replicate 28 'B'

/-- Embeds `"CDEFGHIJKL".split("").map((x, i) => x.repeat(optimizedDaysInMonth(i + 3))).join("")`. -/
def tableEnd : List Char :=
  ("CDEFGHIJKL".data.enum).flatMap
    (fun p => List.replicate (optimizedDaysInMonth ((p.1 : Int) + 3)).toNat p.2)

/-- Embeds `NORMAL_YEAR = pre + end`. -/
def NORMAL_YEAR : List Char := tablePre ++ tableEnd

/-- Embeds `LEAP_YEAR = pre + "B" + end`. -/
def LEAP_YEAR : List Char := tablePre ++ 'B' :: tableEnd

/-- Embeds the `month` getter.  `d` is the same inline expression as `gval`.
The lookup `LEAP_YEAR.charCodeAt(value - d)` yields `NaN` out of bounds (JS);
the embedding returns 0 there, and the in-bounds safety of the read over the
whole valid range is proved separately (claim C10). -/
def monthOf (v : Nat) : Nat :=
  let y := yearOf v
  let d := gval y
  match (if isLeapYearN y then LEAP_YEAR else NORMAL_YEAR).get? (v - d) with
  | some ch => ch.toNat - MONTHS_CHAR_OFFSET
  | none => 0

/-- Embeds the `day` getter: `value - tripletToDaysValue(this.year, this.month, 1) + 1`.
For every stored date the inner call returns an in-range number (proved with
the bijection claims); the fallback 0 models the unreachable `NaN` branches. -/
def dayOf (v : Nat) : Nat :=
  match tripletToDaysValue (yearOf v) (monthOf v) 1 with
  | .ok (some t) => ((v : Int) - t + 1).toNat
  | _ => 0

/-- Embeds `addDays`: `new CalendarDate(this.#value + delta)`. -/
def addDays (v : Nat) (delta : Int) : Except DateError Nat :=
  mkCalendarDate (some ((v : Int) + delta))

/-- Embeds `addYears`. -/
def addYears (v : Nat) (delta : Int) : Except DateError Nat :=
  let newYear : Int := (yearOf v : Int) + delta
  if monthOf v = 2 ∧ dayOf v = 29 ∧ ¬ isLeapYear newYear then
    create newYear ((monthOf v : Int) + 1) 1
  else
    create newYear (monthOf v) (dayOf v)

/-- Embeds `addMonths`.  `(currentMonths + delta) / 12 | 0` truncates toward
zero (`Int.tdiv`) and JS `%` is the truncated remainder (`Int.tmod`). -/
def addMonths (v : Nat) (delta : Int) : Except DateError Nat :=
  let currentMonths : Int := (yearOf v : Int) * 12 + (monthOf v : Int) - 1
  let newYear := (currentMonths + delta).tdiv 12
  let newMonth := (currentMonths + delta).tmod 12 + 1
  let maxDay := daysInMonth newYear newMonth
  let overflow := max 0 ((dayOf v : Int) - maxDay)
  create newYear newMonth ((dayOf v : Int) - overflow)

/-- Embeds `toEpochMs`: `(value - 719528) * 86400_000`. -/
def toEpochMs (v : Nat) : Int := ((v : Int) - 719528) * 86400000

/-- Embeds `toEpochSeconds` (from `src/unnamed/part_000`): `(value - 719528) * 86400`. -/
def toEpochSeconds (v : Nat) : Int := ((v : Int) - 719528) * 86400

/-! ### Auxiliary definitions for the verification -/

/-- Boolean check that the closed-form year formula is exact at both endpoints
of year `y`: at January 1 (`gval y`) and at December 31 (`gval (y+1) - 1`). -/
def yearCheck (y : Nat) : Bool :=
  (yearOf (gval y) == y) && (yearOf (gval (y + 1) - 1) == y)

/-- Cumulative days before month `m` (1-based; `m = 13` gives the year length)
in a leap or non-leap year: the content of `MONTH_SUMS_NORMAL_YEAR` plus the
leap-day adjustment applied by `tripletToDaysValue` for months after February. -/
def cumDays (leap : Bool) (m : Nat) : Nat :=
  (match m with
   | 1 => 0 | 2 => 31 | 3 => 59 | 4 => 90 | 5 => 120 | 6 => 151 | 7 => 181
   | 8 => 212 | 9 => 243 | 10 => 273 | 11 => 304 | 12 => 334 | 13 => 365
   | _ => 0)
  + (if leap ∧ 2 < m then 1 else 0)

/-- Pointwise check that entry `t` of the day-of-year-to-month table holds the
letter of the month whose cumulative-day interval contains `t`. -/
def tableCheck (leap : Bool) (t : Nat) : Bool :=
  match (if leap then LEAP_YEAR else NORMAL_YEAR).get? t with
  | some ch =>
    decide (1 ≤ ch.toNat - MONTHS_CHAR_OFFSET) &&
    decide (ch.toNat - MONTHS_CHAR_OFFSET ≤ 12) &&
    decide (cumDays leap (ch.toNat - MONTHS_CHAR_OFFSET) ≤ t) &&
    decide (t < cumDays leap (ch.toNat - MONTHS_CHAR_OFFSET + 1))
  | none => false

/-- Ordinal value of the valid triple `(y, m, d)`: the Nat-level counterpart of
`tripletToDaysValue` used to state the encode-then-decode direction. -/
def encodeVal (y m d : Nat) : Nat :=
  gval y + cumDays (isLeapYearN y) m + d - 1

/-- Flat month index `year*12 + (month-1) + delta` used by `addMonths`. -/
def monthIndex (v : Nat) (delta : Int) : Int :=
  (yearOf v : Int) * 12 + (monthOf v : Int) - 1 + delta

/-! ### String layer: models of the ECMAScript string primitives the source
uses (`Number`, `parseInt`, `String(n)`, `padStart`, `substring`, `charAt`),
and the embeddings of `fromString` (both source variants) and `toString`. -/

/-- Decimal value of a digit character. -/
def charDigit (c : Char) : Nat := c.toNat - 48

/-- Value of a little-endian list of decimal digits. -/
def valLE : List Nat → Nat
  | [] => 0
  | d :: r => d + 10 * valLE r

/-- Numeric value of a big-endian list of digit characters. -/
def digitsVal (ds : List Char) : Nat := valLE ((ds.map charDigit).reverse)

/-- Little-endian decimal digits of `n`, with explicit fuel (any `fuel > n`
gives the digits of `n`; `[]` only when the fuel is exhausted). -/
def natDigitsLE (fuel n : Nat) : List Nat :=
  match fuel with
  | 0 => []
  | f + 1 => if n < 10 then [n] else n % 10 :: natDigitsLE f (n / 10)

/-- Models ECMAScript `String(n)` for a non-negative number: the decimal
digits, most significant first. -/
def jsStringOfNat (n : Nat) : String :=
  String.mk (((natDigitsLE (n + 1) n).reverse).map Nat.digitChar)

/-- Models ECMAScript `String(n)` for an integer (`String(-0)` is `"0"`). -/
def jsStringOfInt (n : Int) : String :=
  if n < 0 then "-" ++ jsStringOfNat (-n).toNat else jsStringOfNat n.toNat

/-- Embeds `String.prototype.padStart(len, c)`. -/
def padStart (s : String) (len : Nat) (c : Char) : String :=
  String.mk (List.replicate (len - s.length) c ++ s.data)

/-- Embeds `someString.substring(start, start + len)` (out-of-range indices clamp). -/
def jsSubstring (s : String) (start len : Nat) : String :=
  String.mk ((s.data.drop start).take len)

/-- Models ECMAScript `Number(string)` (`none` is `NaN`) on the fragment
`space* sign? digits* space*`: a whitespace-only string coerces to 0, a sign
requires at least one digit, and any string with characters outside this
fragment (decimal points, exponents, hex, `Infinity`, other whitespace) is
conservatively `NaN`.  Every string the theorems below feed to it lies in the
fragment, where this is exactly the ECMAScript StringToNumber. -/
def jsNumber (s : String) : Option Int :=
  let t := ((s.data.dropWhile (· = ' ')).reverse.dropWhile (· = ' ')).reverse
  match t with
  | [] => some 0
  | c :: r =>
    if c = '-' then
      if r ≠ [] ∧ r.all Char.isDigit then some (-(digitsVal r : Int)) else none
    else if c = '+' then
      if r ≠ [] ∧ r.all Char.isDigit then some ((digitsVal r : Int)) else none
    else if (c :: r).all Char.isDigit then some ((digitsVal (c :: r) : Int)) else none

/-- Models ECMAScript `parseInt(string, 10)` on the same fragment: leading
whitespace is skipped, then an optional sign and the longest digit prefix;
no digits give `NaN`. -/
def parseIntDec (s : String) : Option Int :=
  let t := s.data.dropWhile (· = ' ')
  let sr : Int × List Char :=
    match t with
    | c :: r2 => if c = '-' then (-1, r2) else if c = '+' then (1, r2) else (1, t)
    | [] => (1, t)
  let ds := sr.2.takeWhile Char.isDigit
  if ds ≠ [] then some (sr.1 * (digitsVal ds : Int)) else none

/-- Embeds `extractInt` of `src/CalendarDate.ts`:
`Number(someString.substring(start, start + len))`. -/
def extractInt (s : String) (start len : Nat) : Option Int :=
  jsNumber (jsSubstring s start len)

/-- Embeds `CalendarDate.fromString` of `src/CalendarDate.ts`: dispatch on the
two shapes (length 10 with hyphens at 4 and 7, or length 8), the `isNaN`
checks, then `new CalendarDate(tripletToDaysValue(year, month, day))`. -/
def fromString (str : String) : Except DateError Nat :=
  let year := extractInt str 0 4
  let md : Option Int × Option Int :=
    if str.length = 10 ∧ str.data.get? 4 = some '-' ∧ str.data.get? 7 = some '-' then
      (extractInt str 5 2, extractInt str 8 2)
    else if str.length = 8 then
      (extractInt str 4 2, extractInt str 6 2)
    else (none, none)
  match year, md.1, md.2 with
  | some y, some m, some d => create y m d
  | _, _, _ => .error .parseFormat

/-- Embeds `CalendarDate.fromString` of `src/unnamed/part_000`: `parseInt`
based field extraction, with the length-8 path guarded by
`String(parseInt(str, 10)).padStart(8, "0") === str` (when the parse is `NaN`
the JS comparison reads `"00000NaN" === str`, written out literally here). -/
def fromStringB (str : String) : Except DateError Nat :=
  let year := parseIntDec (jsSubstring str 0 4)
  let md : Option Int × Option Int :=
    if str.length = 10 ∧ str.data.get? 4 = some '-' ∧ str.data.get? 7 = some '-' then
      (parseIntDec (jsSubstring str 5 2), parseIntDec (jsSubstring str 8 2))
    else if str.length = 8 ∧
        (match parseIntDec str with
         | some n => padStart (jsStringOfInt n) 8 '0'
         | none => padStart "NaN" 8 '0') = str then
      (parseIntDec (jsSubstring str 4 2), parseIntDec (jsSubstring str 6 2))
    else (none, none)
  match year, md.1, md.2 with
  | some y, some m, some d => create y m d
  | _, _, _ => .error .parseFormat

/-- Embeds `CalendarDate.toString`:
`String(year).padStart(4, "0") + (month < 10 ? "-0" : "-") + month + (day < 10 ? "-0" : "-") + day`. -/
def toStr (v : Nat) : String :=
  padStart (jsStringOfNat (yearOf v)) 4 '0'
    ++ (if monthOf v < 10 then "-0" else "-") ++ jsStringOfNat (monthOf v)
    ++ (if dayOf v < 10 then "-0" else "-") ++ jsStringOfNat (dayOf v)

/-- Canonical zero-padded `YYYY-MM-DD` rendering of a (year, month, day) triple. -/
def canonicalString (y m d : Nat) : String :=
  padStart (jsStringOfNat y) 4 '0' ++ "-" ++ padStart (jsStringOfNat m) 2 '0'
    ++ "-" ++ padStart (jsStringOfNat d) 2 '0'

/-- Valid canonical-format date strings: the zero-padded renderings of the
valid (year, month, day) triples. -/
def IsCanonical (s : String) : Prop :=
  ∃ y m d, 1 ≤ y ∧ y ≤ 9999 ∧ 1 ≤ m ∧ m ≤ 12 ∧ 1 ≤ d ∧
    d ≤ cumDays (isLeapYearN y) (m + 1) - cumDays (isLeapYearN y) m ∧
    s = canonicalString y m d

/-! ### Year extraction engine -/


set_option maxRecDepth 4000 in
set_option maxHeartbeats 2000000 in
/-- Exhaustive endpoint check over years 1..9999, split into blocks of 100 to
keep the decision procedure's recursion shallow. -/
theorem yearCheck_blocks :
    ∀ a : Nat, a < 100 → ∀ b : Nat, b < 100 →
      100 * a + b = 0 ∨ yearCheck (100 * a + b) = true := by decide

theorem yearCheck_all (y : Nat) (h1 : y < 10000) (h2 : 0 < y) : yearCheck y = true := by
  have hb := yearCheck_blocks (y / 100) (by omega) (y % 100) (by omega)
  have heq : 100 * (y / 100) + y % 100 = y := by omega
  rw [heq] at hb
  rcases hb with h | h
  · omega
  · exact h

theorem yearOf_mono {v w : Nat} (h : v ≤ w) : yearOf v ≤ yearOf w := by
  unfold yearOf
  have h1 : v / 36525 ≤ w / 36525 := Nat.div_le_div_right h
  apply Nat.div_le_div_right
  generalize v / 36525 = a at h1
  generalize w / 36525 = b at h1
  omega

theorem isLeapYearN_iff (y : Nat) :
    isLeapYearN y = true ↔ (y % 4 = 0 ∧ (¬ y % 100 = 0 ∨ y % 400 = 0)) := by
  simp [isLeapYearN]

/-- Length of year `y` (difference of consecutive January firsts) is 366 in a
leap year and 365 otherwise. -/
theorem gval_succ (y : Nat) :
    gval (y + 1) = gval y + (if isLeapYearN y then 366 else 365) := by
  have a1 : y % 4 = 0 → (y + 1 + 3) / 4 = (y + 3) / 4 + 1 := by omega
  have a2 : ¬ y % 4 = 0 → (y + 1 + 3) / 4 = (y + 3) / 4 := by omega
  have b1 : y % 100 = 0 → (y + 1 + 99) / 100 = (y + 99) / 100 + 1 := by omega
  have b2 : ¬ y % 100 = 0 → (y + 1 + 99) / 100 = (y + 99) / 100 := by omega
  have c1 : y % 400 = 0 → (y + 1 + 399) / 400 = (y + 399) / 400 + 1 := by omega
  have c2 : ¬ y % 400 = 0 → (y + 1 + 399) / 400 = (y + 399) / 400 := by omega
  have i1 : y % 100 = 0 → y % 4 = 0 := by omega
  have i2 : y % 400 = 0 → y % 100 = 0 := by omega
  have hgb : (y + 99) / 100 ≤ y * 365 + (y + 3) / 4 := by omega
  have h := isLeapYearN_iff y
  cases hl : isLeapYearN y
  · rw [hl] at h
    simp only [Bool.false_eq_true, false_iff] at h
    push_neg at h
    simp only [Bool.false_eq_true, if_false]
    unfold gval
    rcases Nat.eq_zero_or_pos (y % 4) with h4 | h4
    · obtain ⟨h100, h400⟩ := h h4
      omega
    · omega
  · rw [hl] at h
    simp only [true_iff] at h
    obtain ⟨h4, h2⟩ := h
    simp only [if_true]
    unfold gval
    rcases h2 with h100 | h400
    · omega
    · omega

theorem gval_mono {a b : Nat} (h : a ≤ b) : gval a ≤ gval b := by
  induction b with
  | zero =>
    have ha : a = 0 := Nat.le_zero.mp h
    subst ha
    exact Nat.le_refl _
  | succ n ih =>
    by_cases ha : a ≤ n
    · have hs := gval_succ n
      have hle := ih ha
      cases hl : isLeapYearN n <;> rw [hl] at hs <;> simp at hs <;> omega
    · have ha2 : a = n + 1 := by omega
      subst ha2
      exact Nat.le_refl _

theorem gval_one : gval 1 = 366 := by decide

theorem gval_top : gval 10000 = 3652425 := by decide

theorem yearOf_unique {v y : Nat} (hy1 : 0 < y) (hy2 : y ≤ 9999)
    (h1 : gval y ≤ v) (h2 : v < gval (y + 1)) : yearOf v = y := by
  have hc := yearCheck_all y (by omega) hy1
  unfold yearCheck at hc
  simp only [Bool.and_eq_true, beq_iff_eq] at hc
  have hlo : y ≤ yearOf v := hc.1 ▸ yearOf_mono h1
  have hhi : yearOf v ≤ y := hc.2 ▸ yearOf_mono (by omega : v ≤ gval (y + 1) - 1)
  omega

theorem year_exists {v : Nat} (h1 : 366 ≤ v) (h2 : v ≤ 3652424) :
    ∃ y, 0 < y ∧ y ≤ 9999 ∧ gval y ≤ v ∧ v < gval (y + 1) := by
  have key : ∀ N : Nat, v < gval N →
      ∃ y, 0 < y ∧ y + 1 ≤ N ∧ gval y ≤ v ∧ v < gval (y + 1) := by
    intro N
    induction N with
    | zero =>
      intro hv
      exfalso
      have h0 : gval 0 = 0 := by decide
      omega
    | succ n ih =>
      intro hv
      by_cases hn : v < gval n
      · obtain ⟨y, hy1, hy2, hy3, hy4⟩ := ih hn
        exact ⟨y, hy1, by omega, hy3, hy4⟩
      · have hn1 : 0 < n := by
          rcases Nat.eq_zero_or_pos n with h0 | h0
          · subst h0
            rw [gval_one] at hv
            omega
          · exact h0
        exact ⟨n, hn1, Nat.le_refl _, by omega, hv⟩
  obtain ⟨y, a, b, c, d⟩ := key 10000 (by rw [gval_top]; omega)
  exact ⟨y, a, by omega, c, d⟩

theorem yearOf_correct {v : Nat} (h1 : 366 ≤ v) (h2 : v ≤ 3652424) :
    0 < yearOf v ∧ yearOf v ≤ 9999 ∧ gval (yearOf v) ≤ v ∧ v < gval (yearOf v + 1) := by
  obtain ⟨y, hy1, hy2, ha, hb⟩ := year_exists h1 h2
  have he := yearOf_unique hy1 hy2 ha hb
  subst he
  exact ⟨hy1, hy2, ha, hb⟩

/-! ### Month tables and cumulative day sums -/


set_option maxRecDepth 4000 in
theorem tableCheck_normal : ∀ t : Nat, t < 365 → tableCheck false t = true := by decide

set_option maxRecDepth 4000 in
theorem tableCheck_leap : ∀ t : Nat, t < 366 → tableCheck true t = true := by decide

theorem tableCheck_elim {leap : Bool} {t : Nat} (h : tableCheck leap t = true) :
    ∃ ch, (if leap then LEAP_YEAR else NORMAL_YEAR).get? t = some ch ∧
      1 ≤ ch.toNat - MONTHS_CHAR_OFFSET ∧ ch.toNat - MONTHS_CHAR_OFFSET ≤ 12 ∧
      cumDays leap (ch.toNat - MONTHS_CHAR_OFFSET) ≤ t ∧
      t < cumDays leap (ch.toNat - MONTHS_CHAR_OFFSET + 1) := by
  unfold tableCheck at h
  cases hg : (if leap then LEAP_YEAR else NORMAL_YEAR).get? t with
  | none => rw [hg] at h; simp at h
  | some ch =>
    rw [hg] at h
    simp only [Bool.and_eq_true, decide_eq_true_eq] at h
    exact ⟨ch, rfl, h.1.1.1, h.1.1.2, h.1.2, h.2⟩

theorem cumDays_mono (leap : Bool) :
    ∀ a : Nat, a < 14 → ∀ b : Nat, b < 14 → a ≤ b → cumDays leap a ≤ cumDays leap b := by
  cases leap <;> decide

/-- The month accessor of a valid date returns a month 1..12 whose
cumulative-day interval contains the day-of-year offset `v - gval (yearOf v)`. -/
theorem monthOf_spec {v : Nat} (h1 : 366 ≤ v) (h2 : v ≤ 3652424) :
    1 ≤ monthOf v ∧ monthOf v ≤ 12 ∧
    cumDays (isLeapYearN (yearOf v)) (monthOf v) ≤ v - gval (yearOf v) ∧
    v - gval (yearOf v) < cumDays (isLeapYearN (yearOf v)) (monthOf v + 1) := by
  obtain ⟨hy0, hy9, hga, hgb⟩ := yearOf_correct h1 h2
  have hlen := gval_succ (yearOf v)
  cases hL : isLeapYearN (yearOf v)
  · rw [hL] at hlen
    simp only [Bool.false_eq_true, if_false] at hlen
    have ht : v - gval (yearOf v) < 365 := by omega
    have hcheck := tableCheck_normal (v - gval (yearOf v)) ht
    obtain ⟨ch, hg, hm1, hm2, hc1, hc2⟩ := tableCheck_elim hcheck
    simp only [Bool.false_eq_true, if_false] at hg
    have hmv : monthOf v = ch.toNat - MONTHS_CHAR_OFFSET := by
      unfold monthOf
      simp only [hL, Bool.false_eq_true, if_false, hg]
    rw [hmv]
    exact ⟨hm1, hm2, hc1, hc2⟩
  · rw [hL] at hlen
    simp only [if_true] at hlen
    have ht : v - gval (yearOf v) < 366 := by omega
    have hcheck := tableCheck_leap (v - gval (yearOf v)) ht
    obtain ⟨ch, hg, hm1, hm2, hc1, hc2⟩ := tableCheck_elim hcheck
    simp only [if_true] at hg
    have hmv : monthOf v = ch.toNat - MONTHS_CHAR_OFFSET := by
      unfold monthOf
      simp only [hL, if_true, hg]
    rw [hmv]
    exact ⟨hm1, hm2, hc1, hc2⟩

/-! ### Casts between the Int-level source operations and the Nat-level accessors -/

theorem tdiv_coe (a b : Nat) : ((a : Int)).tdiv (b : Int) = ((a / b : Nat) : Int) := rfl

theorem gval_cast (y : Nat) :
    (y : Int) * 365 + ((y : Int) + 3).tdiv 4 - ((y : Int) + 99).tdiv 100
      + ((y : Int) + 399).tdiv 400 = (gval y : Int) := by
  have h1 : ((y : Int) + 3).tdiv 4 = (((y + 3) / 4 : Nat) : Int) := rfl
  have h2 : ((y : Int) + 99).tdiv 100 = (((y + 99) / 100 : Nat) : Int) := rfl
  have h3 : ((y : Int) + 399).tdiv 400 = (((y + 399) / 400 : Nat) : Int) := rfl
  rw [h1, h2, h3]
  unfold gval
  omega

theorem isLeapYear_cast (y : Nat) : isLeapYear (y : Int) = isLeapYearN y := by
  have h1 : (isLeapYear (y : Int) = true) ↔ (isLeapYearN y = true) := by
    simp only [isLeapYear, isLeapYearN, Bool.and_eq_true, Bool.or_eq_true,
      beq_iff_eq, bne_iff_ne, ne_eq]
    constructor <;> intro h <;> [skip; skip] <;> omega
  cases hiy : isLeapYear (y : Int) <;> cases hin : isLeapYearN y <;> simp_all

theorem cumDays_true_eq (m : Nat) :
    cumDays true m = cumDays false m + (if 2 < m then 1 else 0) := by
  unfold cumDays
  simp

theorem monthSumLookup_eq (m : Nat) (h1 : 1 ≤ m) (h2 : m ≤ 12) :
    monthSumLookup (m : Int) = some ((cumDays false m : Nat) : Int) := by
  interval_cases m <;> decide

/-! ### Encoding and decoding kernel -/

theorem daysInMonth_cast (y m : Nat) (hm1 : 1 ≤ m) (hm2 : m ≤ 12) :
    daysInMonth (y : Int) (m : Int)
      = ((cumDays (isLeapYearN y) (m + 1) - cumDays (isLeapYearN y) m : Nat) : Int) := by
  interval_cases m <;> cases hl : isLeapYearN y <;>
    simp [daysInMonth, optimizedDaysInMonth, cumDays, isLeapYear_cast, hl] <;> decide

theorem trip_eval (y m d : Nat) (hm1 : 1 ≤ m) (hm2 : m ≤ 12) (hd1 : 1 ≤ d)
    (hd2 : d ≤ cumDays (isLeapYearN y) (m + 1) - cumDays (isLeapYearN y) m) :
    tripletToDaysValue (y : Int) (m : Int) (d : Int)
      = .ok (some ((gval y : Int) + (cumDays (isLeapYearN y) m : Int) + (d : Int) - 1)) := by
  have hdm := daysInMonth_cast y m hm1 hm2
  have hguard : ¬ ((d : Int) ≤ 0 ∨ (d : Int) > daysInMonth (y : Int) (m : Int)) := by
    rw [hdm]
    push_neg
    constructor <;> omega
  unfold tripletToDaysValue
  rw [if_neg hguard, monthSumLookup_eq m hm1 hm2]
  refine congrArg Except.ok (congrArg some ?_)
  rw [gval_cast, isLeapYear_cast]
  split_ifs with hc
  · obtain ⟨hly, hm3⟩ := hc
    rw [hly, cumDays_true_eq, if_pos (by omega : 2 < m)]
    omega
  · cases hl : isLeapYearN y
    · omega
    · rw [cumDays_true_eq, if_neg (fun hgt => hc ⟨hl, by omega⟩)]
      omega

theorem mkCalendarDate_ok (w : Int) (ha : 366 ≤ w) (hb : w ≤ 3652424) :
    mkCalendarDate (some w) = Except.ok w.toNat := by
  have heq : mkCalendarDate (some w)
      = if w < 366 ∨ w > 3652424 then Except.error DateError.valueOutOfRange
        else Except.ok w.toNat := rfl
  rw [heq, if_neg (by omega)]

theorem mkCalendarDate_err (w : Int) (h : w < 366 ∨ w > 3652424) :
    mkCalendarDate (some w) = Except.error DateError.valueOutOfRange := by
  have heq : mkCalendarDate (some w)
      = if w < 366 ∨ w > 3652424 then Except.error DateError.valueOutOfRange
        else Except.ok w.toNat := rfl
  rw [heq, if_pos h]

theorem dayOf_spec {v : Nat} (h1 : 366 ≤ v) (h2 : v ≤ 3652424) :
    dayOf v = v - gval (yearOf v) - cumDays (isLeapYearN (yearOf v)) (monthOf v) + 1 ∧
    1 ≤ dayOf v ∧
    dayOf v ≤ cumDays (isLeapYearN (yearOf v)) (monthOf v + 1)
      - cumDays (isLeapYearN (yearOf v)) (monthOf v) := by
  obtain ⟨hm1, hm2, hc1, hc2⟩ := monthOf_spec h1 h2
  obtain ⟨hy0, hy9, hga, hgb⟩ := yearOf_correct h1 h2
  have ht := trip_eval (yearOf v) (monthOf v) 1 hm1 hm2 (Nat.le_refl 1) (by omega)
  rw [Nat.cast_one] at ht
  have hdv : dayOf v = ((v : Int) - ((gval (yearOf v) : Int)
      + (cumDays (isLeapYearN (yearOf v)) (monthOf v) : Int) + 1 - 1) + 1).toNat := by
    unfold dayOf
    rw [ht]
  refine ⟨by omega, by omega, by omega⟩

theorem roundtrip {v : Nat} (h1 : 366 ≤ v) (h2 : v ≤ 3652424) :
    create (yearOf v) (monthOf v) (dayOf v) = .ok v := by
  obtain ⟨hm1, hm2, hc1, hc2⟩ := monthOf_spec h1 h2
  obtain ⟨hd_eq, hd1, hd2⟩ := dayOf_spec h1 h2
  obtain ⟨hy0, hy9, hga, hgb⟩ := yearOf_correct h1 h2
  unfold create
  rw [trip_eval (yearOf v) (monthOf v) (dayOf v) hm1 hm2 hd1 hd2]
  have harith : (gval (yearOf v) : Int) + (cumDays (isLeapYearN (yearOf v)) (monthOf v) : Int)
      + (dayOf v : Int) - 1 = (v : Int) := by omega
  rw [harith]
  simp only [Except.bind]
  rw [mkCalendarDate_ok (v : Int) (by omega) (by omega)]
  have hvt : ((v : Int)).toNat = v := by omega
  rw [hvt]

set_option maxRecDepth 4000 in
theorem NORMAL_YEAR_length : NORMAL_YEAR.length = 365 := by decide

set_option maxRecDepth 4000 in
theorem LEAP_YEAR_length : LEAP_YEAR.length = 366 := by decide

theorem cumDays_thirteen (leap : Bool) :
    cumDays leap 13 = if leap then 366 else 365 := by
  cases leap <;> rfl

/-- Encode-then-decode: every valid (year, month, day) triple maps to an
in-range ordinal from which the three accessors recover the triple, and
`create` succeeds with that ordinal. -/
theorem decode_encode (y m d : Nat) (hy1 : 1 ≤ y) (hy2 : y ≤ 9999) (hm1 : 1 ≤ m)
    (hm2 : m ≤ 12) (hd1 : 1 ≤ d)
    (hd2 : d ≤ cumDays (isLeapYearN y) (m + 1) - cumDays (isLeapYearN y) m) :
    366 ≤ encodeVal y m d ∧ encodeVal y m d ≤ 3652424 ∧
    yearOf (encodeVal y m d) = y ∧ monthOf (encodeVal y m d) = m ∧
    dayOf (encodeVal y m d) = d ∧
    create (y : Int) (m : Int) (d : Int) = .ok (encodeVal y m d) := by
  have hcm := cumDays_mono (isLeapYearN y) m (by omega) (m + 1) (by omega) (by omega)
  have hc13 := cumDays_mono (isLeapYearN y) (m + 1) (by omega) 13 (by omega) (by omega)
  have h13 := cumDays_thirteen (isLeapYearN y)
  have hlen := gval_succ y
  have hlen2 : gval (y + 1) = gval y + cumDays (isLeapYearN y) 13 := by
    cases hL : isLeapYearN y <;> rw [hL] at hlen h13 <;> simp at hlen h13 <;> omega
  have hg1 : gval 1 ≤ gval y := gval_mono hy1
  have hgn : gval (y + 1) ≤ gval 10000 := gval_mono (by omega)
  have hgo := gval_one
  have hgt := gval_top
  have hrange1 : 366 ≤ encodeVal y m d := by unfold encodeVal; omega
  have hrange2 : encodeVal y m d ≤ 3652424 := by unfold encodeVal; omega
  have hlow : gval y ≤ encodeVal y m d := by unfold encodeVal; omega
  have hhigh : encodeVal y m d < gval (y + 1) := by unfold encodeVal; omega
  have hyear : yearOf (encodeVal y m d) = y := yearOf_unique (by omega) hy2 hlow hhigh
  obtain ⟨hm1x, hm2x, hc1x, hc2x⟩ := monthOf_spec hrange1 hrange2
  rw [hyear] at hc1x hc2x
  have htv : encodeVal y m d - gval y = cumDays (isLeapYearN y) m + (d - 1) := by
    unfold encodeVal; omega
  have hmeq : monthOf (encodeVal y m d) = m := by
    rcases Nat.lt_trichotomy (monthOf (encodeVal y m d)) m with hlt | heq | hgt2
    · have hmm := cumDays_mono (isLeapYearN y) (monthOf (encodeVal y m d) + 1)
        (by omega) m (by omega) (by omega)
      omega
    · exact heq
    · have hmm := cumDays_mono (isLeapYearN y) (m + 1) (by omega)
        (monthOf (encodeVal y m d)) (by omega) (by omega)
      omega
  obtain ⟨hdeq, hd1x, hd2x⟩ := dayOf_spec hrange1 hrange2
  rw [hyear, hmeq] at hdeq
  have hday : dayOf (encodeVal y m d) = d := by omega
  refine ⟨hrange1, hrange2, hyear, hmeq, hday, ?_⟩
  unfold create
  rw [trip_eval y m d hm1 hm2 hd1 hd2]
  simp only [Except.bind]
  have harith : (gval y : Int) + (cumDays (isLeapYearN y) m : Int) + (d : Int) - 1
      = (encodeVal y m d : Int) := by unfold encodeVal; omega
  rw [harith, mkCalendarDate_ok _ (by omega) (by omega)]
  have hvt : ((encodeVal y m d : Int)).toNat = encodeVal y m d := by omega
  rw [hvt]

/-- C1: for every ordinal value v in [366, 3652424], the year/month/day
accessors of a date with value v form a valid triple (month in 1..12, day in
1..daysInMonth(year, month)), and re-encoding that triple through
`tripletToDaysValue`/`create` yields exactly v again. -/
theorem claim_C1 (v : Nat) (h1 : 366 ≤ v) (h2 : v ≤ 3652424) :
    1 ≤ monthOf v ∧ monthOf v ≤ 12 ∧
    1 ≤ dayOf v ∧ (dayOf v : Int) ≤ daysInMonth (yearOf v) (monthOf v) ∧
    create (yearOf v) (monthOf v) (dayOf v) = .ok v := by
  obtain ⟨hm1, hm2, hc1, hc2⟩ := monthOf_spec h1 h2
  obtain ⟨hdeq, hd1, hd2⟩ := dayOf_spec h1 h2
  have hdm := daysInMonth_cast (yearOf v) (monthOf v) hm1 hm2
  refine ⟨hm1, hm2, hd1, ?_, roundtrip h1 h2⟩
  rw [hdm]
  omega

theorem claim_C1_witness :
    1 ≤ monthOf 730850 ∧ monthOf 730850 ≤ 12 ∧
    1 ≤ dayOf 730850 ∧ (dayOf 730850 : Int) ≤ daysInMonth (yearOf 730850) (monthOf 730850) ∧
    create (yearOf 730850) (monthOf 730850) (dayOf 730850) = .ok 730850 :=
  claim_C1 730850 (by norm_num) (by norm_num)

/-- C2: the closed-form year extraction (centuries-corrected division by
365.25, embedded exactly as integer arithmetic) returns, for every value in
the supported range, precisely the unique calendar year y whose January 1
(`tripletToDaysValue y 1 1 = gval y`) and December 31
(`tripletToDaysValue y 12 31 = gval (y+1) - 1`) ordinals bracket v. -/
theorem claim_C2 (v : Nat) (h1 : 366 ≤ v) (h2 : v ≤ 3652424) :
    1 ≤ yearOf v ∧ yearOf v ≤ 9999 ∧
    tripletToDaysValue (yearOf v) 1 1 = .ok (some (gval (yearOf v))) ∧
    tripletToDaysValue (yearOf v) 12 31 = .ok (some ((gval (yearOf v + 1) : Int) - 1)) ∧
    gval (yearOf v) ≤ v ∧ v ≤ gval (yearOf v + 1) - 1 ∧
    ∀ y : Nat, gval y ≤ v → v ≤ gval (y + 1) - 1 → y = yearOf v := by
  obtain ⟨hy0, hy9, hga, hgb⟩ := yearOf_correct h1 h2
  have hgo := gval_one
  have hgtp := gval_top
  have hc1 : cumDays (isLeapYearN (yearOf v)) 1 = 0 := by
    cases isLeapYearN (yearOf v) <;> rfl
  have hc2 : cumDays (isLeapYearN (yearOf v)) 2 = 31 := by
    cases isLeapYearN (yearOf v) <;> rfl
  have hlen := gval_succ (yearOf v)
  have t1 := trip_eval (yearOf v) 1 1 (by omega) (by omega) (by omega)
    (by cases isLeapYearN (yearOf v) <;> decide)
  simp only [Nat.cast_one] at t1
  have e1 : (gval (yearOf v) : Int) + (cumDays (isLeapYearN (yearOf v)) 1 : Int)
      + (1 : Int) - 1 = ((gval (yearOf v) : Nat) : Int) := by omega
  rw [e1] at t1
  have t2 := trip_eval (yearOf v) 12 31 (by omega) (by omega) (by omega)
    (by cases isLeapYearN (yearOf v) <;> decide)
  simp only [Nat.cast_ofNat] at t2
  have e2 : (gval (yearOf v) : Int) + (cumDays (isLeapYearN (yearOf v)) 12 : Int)
      + (31 : Int) - 1 = ((gval (yearOf v + 1) : Nat) : Int) - 1 := by
    cases hL : isLeapYearN (yearOf v)
    · rw [hL] at hlen
      simp only [Bool.false_eq_true, if_false] at hlen
      have h334 : cumDays false 12 = 334 := rfl
      omega
    · rw [hL] at hlen
      simp only [if_true] at hlen
      have h335 : cumDays true 12 = 335 := rfl
      omega
  rw [e2] at t2
  refine ⟨hy0, hy9, t1, t2, hga, by omega, ?_⟩
  intro y ha hb
  have hb0 : 0 < y := by
    rcases Nat.eq_zero_or_pos y with h0 | h0
    · subst h0
      norm_num at hb
      omega
    · exact h0
  have hb9 : y ≤ 9999 := by
    by_contra hgt2
    push_neg at hgt2
    have hmo := gval_mono (show 10000 ≤ y by omega)
    omega
  have hup : v < gval (y + 1) := by
    have hmo := gval_mono (show 1 ≤ y + 1 by omega)
    omega
  have := yearOf_unique hb0 hb9 ha hup
  omega

theorem claim_C2_witness :
    1 ≤ yearOf 719528 ∧ yearOf 719528 ≤ 9999 ∧
    tripletToDaysValue (yearOf 719528) 1 1 = .ok (some (gval (yearOf 719528))) ∧
    tripletToDaysValue (yearOf 719528) 12 31
      = .ok (some ((gval (yearOf 719528 + 1) : Int) - 1)) ∧
    gval (yearOf 719528) ≤ 719528 ∧ 719528 ≤ gval (yearOf 719528 + 1) - 1 ∧
    ∀ y : Nat, gval y ≤ 719528 → 719528 ≤ gval (y + 1) - 1 → y = yearOf 719528 :=
  claim_C2 719528 (by norm_num) (by norm_num)

/-- C10: for every valid ordinal, the day-of-year index computed inside the
month getter is within the bounds of the selected table (365 or 366 entries),
so the character read never goes past the end and yields a month letter A..L,
i.e. a month 1..12. -/
theorem claim_C10 (v : Nat) (h1 : 366 ≤ v) (h2 : v ≤ 3652424) :
    gval (yearOf v) ≤ v ∧
    v - gval (yearOf v) ≤ (if isLeapYearN (yearOf v) then 365 else 364) ∧
    (if isLeapYearN (yearOf v) then LEAP_YEAR else NORMAL_YEAR).length
      = (if isLeapYearN (yearOf v) then 366 else 365) ∧
    ∃ ch, (if isLeapYearN (yearOf v) then LEAP_YEAR else NORMAL_YEAR).get?
        (v - gval (yearOf v)) = some ch ∧
      'A'.toNat ≤ ch.toNat ∧ ch.toNat ≤ 'L'.toNat ∧
      monthOf v = ch.toNat - MONTHS_CHAR_OFFSET ∧
      1 ≤ ch.toNat - MONTHS_CHAR_OFFSET ∧ ch.toNat - MONTHS_CHAR_OFFSET ≤ 12 := by
  obtain ⟨hy0, hy9, hga, hgb⟩ := yearOf_correct h1 h2
  have hlen := gval_succ (yearOf v)
  have hoff : MONTHS_CHAR_OFFSET = 64 := rfl
  have hA : 'A'.toNat = 65 := rfl
  have hLc : 'L'.toNat = 76 := rfl
  cases hL : isLeapYearN (yearOf v)
  · rw [hL] at hlen
    simp only [Bool.false_eq_true, if_false] at hlen ⊢
    have ht : v - gval (yearOf v) < 365 := by omega
    have hcheck := tableCheck_normal (v - gval (yearOf v)) ht
    obtain ⟨ch, hg, hm1, hm2, hcc1, hcc2⟩ := tableCheck_elim hcheck
    simp only [Bool.false_eq_true, if_false] at hg
    have hmv : monthOf v = ch.toNat - MONTHS_CHAR_OFFSET := by
      unfold monthOf
      simp only [hL, Bool.false_eq_true, if_false, hg]
    exact ⟨hga, by omega, NORMAL_YEAR_length, ch, hg, by omega, by omega, hmv, hm1, hm2⟩
  · rw [hL] at hlen
    simp only [if_true] at hlen ⊢
    have ht : v - gval (yearOf v) < 366 := by omega
    have hcheck := tableCheck_leap (v - gval (yearOf v)) ht
    obtain ⟨ch, hg, hm1, hm2, hcc1, hcc2⟩ := tableCheck_elim hcheck
    simp only [if_true] at hg
    have hmv : monthOf v = ch.toNat - MONTHS_CHAR_OFFSET := by
      unfold monthOf
      simp only [hL, if_true, hg]
    exact ⟨hga, by omega, LEAP_YEAR_length, ch, hg, by omega, by omega, hmv, hm1, hm2⟩

theorem claim_C10_witness :
    gval (yearOf 730544) ≤ 730544 ∧
    730544 - gval (yearOf 730544) ≤ (if isLeapYearN (yearOf 730544) then 365 else 364) ∧
    (if isLeapYearN (yearOf 730544) then LEAP_YEAR else NORMAL_YEAR).length
      = (if isLeapYearN (yearOf 730544) then 366 else 365) ∧
    ∃ ch, (if isLeapYearN (yearOf 730544) then LEAP_YEAR else NORMAL_YEAR).get?
        (730544 - gval (yearOf 730544)) = some ch ∧
      'A'.toNat ≤ ch.toNat ∧ ch.toNat ≤ 'L'.toNat ∧
      monthOf 730544 = ch.toNat - MONTHS_CHAR_OFFSET ∧
      1 ≤ ch.toNat - MONTHS_CHAR_OFFSET ∧ ch.toNat - MONTHS_CHAR_OFFSET ≤ 12 :=
  claim_C10 730544 (by norm_num) (by norm_num)

theorem cumDiff_ge (leap : Bool) :
    ∀ m : Nat, 1 ≤ m → m ≤ 12 → 28 ≤ cumDays leap (m + 1) - cumDays leap m := by
  cases leap <;> decide

/-- C5: addDays adds the delta to the stored ordinal and validates it exactly
the way the raw constructor does: an in-range result is returned as a new date
with value v + delta, an out-of-range result raises the constructor's
out-of-range error, and nothing is clamped. -/
theorem claim_C5 (v : Nat) (delta : Int) (h1 : 366 ≤ v) (h2 : v ≤ 3652424) :
    addDays v delta = mkCalendarDate (some ((v : Int) + delta)) ∧
    (366 ≤ (v : Int) + delta → (v : Int) + delta ≤ 3652424 →
      addDays v delta = .ok ((v : Int) + delta).toNat) ∧
    (((v : Int) + delta < 366 ∨ (v : Int) + delta > 3652424) →
      addDays v delta = .error .valueOutOfRange) := by
  refine ⟨rfl, fun ha hb => ?_, fun hc => ?_⟩
  · unfold addDays
    exact mkCalendarDate_ok _ ha hb
  · unfold addDays
    exact mkCalendarDate_err _ hc

theorem claim_C5_witness :
    (addDays 719528 (-719163) = mkCalendarDate (some ((719528 : Int) + (-719163))) ∧
      (366 ≤ (719528 : Int) + (-719163) → (719528 : Int) + (-719163) ≤ 3652424 →
        addDays 719528 (-719163) = .ok ((719528 : Int) + (-719163)).toNat) ∧
      (((719528 : Int) + (-719163) < 366 ∨ (719528 : Int) + (-719163) > 3652424) →
        addDays 719528 (-719163) = .error .valueOutOfRange)) :=
  claim_C5 719528 (-719163) (by norm_num) (by norm_num)

/-- C9: toEpochMs and toEpochSeconds are the fixed affine maps
`(value - 719528) * 86400000` and `(value - 719528) * 86400`, 719528 being the
ordinal of 1970-01-01; the three example dates map to 0, +86400000 and
-86400000 milliseconds. -/
theorem claim_C9 :
    (∀ v : Nat, toEpochMs v = ((v : Int) - 719528) * 86400000 ∧
      toEpochSeconds v = ((v : Int) - 719528) * 86400) ∧
    create 1970 1 1 = .ok 719528 ∧ toEpochMs 719528 = 0 ∧ toEpochSeconds 719528 = 0 ∧
    create 1970 1 2 = .ok 719529 ∧ toEpochMs 719529 = 86400000 ∧
    create 1969 12 31 = .ok 719527 ∧ toEpochMs 719527 = -86400000 :=
  ⟨fun _ => ⟨rfl, rfl⟩, rfl, rfl, rfl, rfl, rfl, rfl, rfl⟩

theorem cumDiff_not_two (a b : Bool) :
    ∀ m : Nat, 1 ≤ m → m ≤ 12 → m ≠ 2 →
      cumDays a (m + 1) - cumDays a m = cumDays b (m + 1) - cumDays b m := by
  cases a <;> cases b <;> decide

/-- C3: addMonths is flat-month-index arithmetic with floor division/modulo
and end-of-month clamping: whenever the floor-decomposed target year is in
1..9999, the result is `create` of that decomposition with the day clamped to
`min(day, daysInMonth)`; 2000-12-31 plus 2 months is 2001-02-28 and plus 4
months is 2001-04-30. -/
theorem claim_C3 (v : Nat) (delta : Int) (h1 : 366 ≤ v) (h2 : v ≤ 3652424)
    (hy1 : 1 ≤ (monthIndex v delta).fdiv 12) (hy9 : (monthIndex v delta).fdiv 12 ≤ 9999) :
    addMonths v delta
      = create ((monthIndex v delta).fdiv 12) ((monthIndex v delta).emod 12 + 1)
          (min (dayOf v : Int)
            (daysInMonth ((monthIndex v delta).fdiv 12) ((monthIndex v delta).emod 12 + 1))) ∧
    (∃ w, addMonths v delta = .ok w ∧
      yearOf w = ((monthIndex v delta).fdiv 12).toNat ∧
      monthOf w = ((monthIndex v delta).emod 12).toNat + 1 ∧
      (dayOf w : Int) = min (dayOf v : Int)
        (daysInMonth ((monthIndex v delta).fdiv 12) ((monthIndex v delta).emod 12 + 1))) ∧
    create 2000 12 31 = .ok 730850 ∧
    addMonths 730850 2 = create 2001 2 28 ∧
    addMonths 730850 4 = create 2001 4 30 := by
  have hfd : (monthIndex v delta).fdiv 12 = monthIndex v delta / 12 :=
    Int.fdiv_eq_ediv _ (by norm_num)
  have hem : (monthIndex v delta).emod 12 = monthIndex v delta % 12 := rfl
  rw [hfd] at hy1 hy9 ⊢
  rw [hem]
  have h0 : 0 ≤ monthIndex v delta := by omega
  have htd : (monthIndex v delta).tdiv 12 = monthIndex v delta / 12 :=
    Int.tdiv_eq_ediv h0 (by norm_num)
  have htm : (monthIndex v delta).tmod 12 = monthIndex v delta % 12 :=
    Int.tmod_eq_emod h0 (by norm_num)
  obtain ⟨hdeq, hd1x, hd2x⟩ := dayOf_spec h1 h2
  have hmain : addMonths v delta
      = create (monthIndex v delta / 12) (monthIndex v delta % 12 + 1)
          (min (dayOf v : Int)
            (daysInMonth (monthIndex v delta / 12) (monthIndex v delta % 12 + 1))) := by
    simp only [monthIndex] at htd htm ⊢
    simp only [addMonths]
    rw [htd, htm]
    have hd : (dayOf v : Int) - max 0 ((dayOf v : Int)
        - daysInMonth (((yearOf v : Int) * 12 + (monthOf v : Int) - 1 + delta) / 12)
          (((yearOf v : Int) * 12 + (monthOf v : Int) - 1 + delta) % 12 + 1))
        = min (dayOf v : Int)
          (daysInMonth (((yearOf v : Int) * 12 + (monthOf v : Int) - 1 + delta) / 12)
            (((yearOf v : Int) * 12 + (monthOf v : Int) - 1 + delta) % 12 + 1)) := by
      omega
    rw [hd]
  refine ⟨hmain, ?_, rfl, rfl, rfl⟩
  have hny1 : 1 ≤ (monthIndex v delta / 12).toNat := by omega
  have hny9 : (monthIndex v delta / 12).toNat ≤ 9999 := by omega
  have hnyc : (((monthIndex v delta / 12).toNat : Nat) : Int) = monthIndex v delta / 12 := by
    omega
  have hm1 : 1 ≤ (monthIndex v delta % 12).toNat + 1 := by omega
  have hm12 : (monthIndex v delta % 12).toNat + 1 ≤ 12 := by omega
  have hnmc : ((((monthIndex v delta % 12).toNat + 1 : Nat)) : Int)
      = monthIndex v delta % 12 + 1 := by
    push_cast
    omega
  have hdimc := daysInMonth_cast ((monthIndex v delta / 12).toNat)
    ((monthIndex v delta % 12).toNat + 1) hm1 hm12
  rw [hnyc, hnmc] at hdimc
  have hd28 := cumDiff_ge (isLeapYearN ((monthIndex v delta / 12).toNat))
    ((monthIndex v delta % 12).toNat + 1) hm1 hm12
  obtain ⟨hr1, hr2, hyw, hmw, hdw, hcr⟩ :=
    decode_encode ((monthIndex v delta / 12).toNat) ((monthIndex v delta % 12).toNat + 1)
      (min (dayOf v)
        (cumDays (isLeapYearN ((monthIndex v delta / 12).toNat))
            ((monthIndex v delta % 12).toNat + 1 + 1)
          - cumDays (isLeapYearN ((monthIndex v delta / 12).toNat))
            ((monthIndex v delta % 12).toNat + 1)))
      hny1 hny9 hm1 hm12 (by omega) (by omega)
  rw [hnyc, hnmc] at hcr
  have hmincast : ((min (dayOf v)
      (cumDays (isLeapYearN ((monthIndex v delta / 12).toNat))
          ((monthIndex v delta % 12).toNat + 1 + 1)
        - cumDays (isLeapYearN ((monthIndex v delta / 12).toNat))
          ((monthIndex v delta % 12).toNat + 1)) : Nat) : Int)
      = min (dayOf v : Int)
        (daysInMonth (monthIndex v delta / 12) (monthIndex v delta % 12 + 1)) := by
    rw [hdimc]
    push_cast
    omega
  rw [hmincast] at hcr
  refine ⟨_, hmain.trans hcr, hyw, hmw, ?_⟩
  rw [hdw, hmincast]

set_option maxRecDepth 4000 in
theorem claim_C3_witness :
    addMonths 730850 2
      = create ((monthIndex 730850 2).fdiv 12) ((monthIndex 730850 2).emod 12 + 1)
          (min (dayOf 730850 : Int)
            (daysInMonth ((monthIndex 730850 2).fdiv 12) ((monthIndex 730850 2).emod 12 + 1))) ∧
    (∃ w, addMonths 730850 2 = .ok w ∧
      yearOf w = ((monthIndex 730850 2).fdiv 12).toNat ∧
      monthOf w = ((monthIndex 730850 2).emod 12).toNat + 1 ∧
      (dayOf w : Int) = min (dayOf 730850 : Int)
        (daysInMonth ((monthIndex 730850 2).fdiv 12) ((monthIndex 730850 2).emod 12 + 1))) ∧
    create 2000 12 31 = .ok 730850 ∧
    addMonths 730850 2 = create 2001 2 28 ∧
    addMonths 730850 4 = create 2001 4 30 :=
  claim_C3 730850 2 (by norm_num) (by norm_num) (by decide) (by decide)

/-- C4: addYears replaces the year by year + delta keeping month and day,
except that February 29 mapped into a non-leap year becomes March 1; the
examples 2000-02-29 + 1 year = 2001-03-01 and + 4 years = 2004-02-29 hold. -/
theorem claim_C4 (v : Nat) (delta : Int) (h1 : 366 ≤ v) (h2 : v ≤ 3652424)
    (hy1 : 1 ≤ (yearOf v : Int) + delta) (hy9 : (yearOf v : Int) + delta ≤ 9999) :
    ((monthOf v = 2 ∧ dayOf v = 29 ∧ ¬ isLeapYear ((yearOf v : Int) + delta)) →
      ∃ w, addYears v delta = .ok w ∧ yearOf w = ((yearOf v : Int) + delta).toNat ∧
        monthOf w = 3 ∧ dayOf w = 1) ∧
    (¬ (monthOf v = 2 ∧ dayOf v = 29 ∧ ¬ isLeapYear ((yearOf v : Int) + delta)) →
      ∃ w, addYears v delta = .ok w ∧ yearOf w = ((yearOf v : Int) + delta).toNat ∧
        monthOf w = monthOf v ∧ dayOf w = dayOf v) ∧
    create 2000 2 29 = .ok 730544 ∧
    addYears 730544 1 = create 2001 3 1 ∧
    addYears 730544 4 = create 2004 2 29 := by
  obtain ⟨hm1x, hm2x, hc1x, hc2x⟩ := monthOf_spec h1 h2
  obtain ⟨hdeq, hd1x, hd2x⟩ := dayOf_spec h1 h2
  have hnyc : ((((yearOf v : Int) + delta).toNat : Nat) : Int) = (yearOf v : Int) + delta := by
    omega
  have hny1 : 1 ≤ ((yearOf v : Int) + delta).toNat := by omega
  have hny9 : ((yearOf v : Int) + delta).toNat ≤ 9999 := by omega
  have hlp : isLeapYear ((yearOf v : Int) + delta)
      = isLeapYearN (((yearOf v : Int) + delta).toNat) := by
    conv_lhs => rw [← hnyc]
    rw [isLeapYear_cast]
  refine ⟨fun hsp => ?_, fun hn => ?_, rfl, rfl, rfl⟩
  · obtain ⟨hm2, hd29, hnl⟩ := hsp
    have hbranch : addYears v delta
        = create ((yearOf v : Int) + delta) ((monthOf v : Int) + 1) 1 := by
      simp only [addYears]
      rw [if_pos ⟨hm2, hd29, hnl⟩]
    have hd2s : 1 ≤ cumDays (isLeapYearN (((yearOf v : Int) + delta).toNat)) (3 + 1)
        - cumDays (isLeapYearN (((yearOf v : Int) + delta).toNat)) 3 := by
      have := cumDiff_ge (isLeapYearN (((yearOf v : Int) + delta).toNat)) 3 (by omega) (by omega)
      omega
    obtain ⟨hr1, hr2, hyw, hmw, hdw, hcr⟩ :=
      decode_encode (((yearOf v : Int) + delta).toNat) 3 1 hny1 hny9 (by omega) (by omega)
        (by omega) hd2s
    rw [hnyc] at hcr
    simp only [Nat.cast_ofNat, Nat.cast_one] at hcr
    have hmcast : (monthOf v : Int) + 1 = (3 : Int) := by rw [hm2]; norm_num
    rw [hbranch, hmcast]
    exact ⟨_, hcr, hyw, hmw, hdw⟩
  · have hbranch : addYears v delta
        = create ((yearOf v : Int) + delta) (monthOf v) (dayOf v) := by
      simp only [addYears]
      rw [if_neg hn]
    have hdbound : dayOf v
        ≤ cumDays (isLeapYearN (((yearOf v : Int) + delta).toNat)) (monthOf v + 1)
          - cumDays (isLeapYearN (((yearOf v : Int) + delta).toNat)) (monthOf v) := by
      by_cases hm2 : monthOf v = 2
      · have hub : dayOf v ≤ 29 := by
          have h29t : cumDays true (2 + 1) - cumDays true 2 = 29 := rfl
          have h29f : cumDays false (2 + 1) - cumDays false 2 = 28 := rfl
          rw [hm2] at hd2x
          cases hL : isLeapYearN (yearOf v) <;> rw [hL] at hd2x <;> omega
        rw [hm2]
        cases hL2 : isLeapYearN (((yearOf v : Int) + delta).toNat)
        · have hne : dayOf v ≠ 29 := by
            intro hd29
            exact hn ⟨hm2, hd29, by rw [hlp, hL2]; simp⟩
          have h28 : cumDays false (2 + 1) - cumDays false 2 = 28 := rfl
          omega
        · have h29 : cumDays true (2 + 1) - cumDays true 2 = 29 := rfl
          omega
      · have hind := cumDiff_not_two (isLeapYearN (yearOf v))
          (isLeapYearN (((yearOf v : Int) + delta).toNat)) (monthOf v) hm1x hm2x hm2
        omega
    obtain ⟨hr1, hr2, hyw, hmw, hdw, hcr⟩ :=
      decode_encode (((yearOf v : Int) + delta).toNat) (monthOf v) (dayOf v)
        hny1 hny9 hm1x hm2x hd1x hdbound
    rw [hnyc] at hcr
    rw [hbranch]
    exact ⟨_, hcr, hyw, hmw, hdw⟩

set_option maxRecDepth 4000 in
theorem claim_C4_witness :
    ((monthOf 730544 = 2 ∧ dayOf 730544 = 29 ∧ ¬ isLeapYear ((yearOf 730544 : Int) + 1)) →
      ∃ w, addYears 730544 1 = .ok w ∧ yearOf w = ((yearOf 730544 : Int) + 1).toNat ∧
        monthOf w = 3 ∧ dayOf w = 1) ∧
    (¬ (monthOf 730544 = 2 ∧ dayOf 730544 = 29 ∧ ¬ isLeapYear ((yearOf 730544 : Int) + 1)) →
      ∃ w, addYears 730544 1 = .ok w ∧ yearOf w = ((yearOf 730544 : Int) + 1).toNat ∧
        monthOf w = monthOf 730544 ∧ dayOf w = dayOf 730544) ∧
    create 2000 2 29 = .ok 730544 ∧
    addYears 730544 1 = create 2001 3 1 ∧
    addYears 730544 4 = create 2004 2 29 :=
  claim_C4 730544 1 (by norm_num) (by norm_num) (by decide) (by decide)

/-! ### Decimal digit lemmas -/

theorem valLE_natDigitsLE : ∀ fuel n : Nat, n < fuel → valLE (natDigitsLE fuel n) = n := by
  intro fuel
  induction fuel with
  | zero => intro n h; omega
  | succ f ih =>
    intro n h
    unfold natDigitsLE
    by_cases h10 : n < 10
    · simp only [if_pos h10]
      unfold valLE valLE
      omega
    · simp only [if_neg h10]
      unfold valLE
      have hrec := ih (n / 10) (by omega)
      omega

theorem natDigitsLE_fuel : ∀ f1 f2 n : Nat, n < f1 → n < f2 →
    natDigitsLE f1 n = natDigitsLE f2 n := by
  intro f1
  induction f1 with
  | zero => intro f2 n h1; omega
  | succ f ih =>
    intro f2 n h1 h2
    cases f2 with
    | zero => omega
    | succ f2' =>
      unfold natDigitsLE
      by_cases h10 : n < 10
      · simp [h10]
      · simp only [if_neg h10]
        rw [ih f2' (n / 10) (by omega) (by omega)]

theorem natDigitsLE_digits : ∀ fuel n : Nat, ∀ d ∈ natDigitsLE fuel n, d < 10 := by
  intro fuel
  induction fuel with
  | zero => intro n d hd; simp [natDigitsLE] at hd
  | succ f ih =>
    intro n d hd
    unfold natDigitsLE at hd
    by_cases h10 : n < 10
    · simp [h10] at hd
      omega
    · simp only [if_neg h10, List.mem_cons] at hd
      rcases hd with hd | hd
      · omega
      · exact ih (n / 10) d hd

theorem digitCharProps : ∀ x : Nat, x < 10 →
    (Nat.digitChar x).isDigit = true ∧ charDigit (Nat.digitChar x) = x ∧
    ¬ Nat.digitChar x = '-' ∧ ¬ Nat.digitChar x = '+' ∧ ¬ Nat.digitChar x = ' ' := by
  decide

theorem isDigit_toNat {c : Char} (h : c.isDigit = true) : 48 ≤ c.toNat ∧ c.toNat ≤ 57 := by
  simp only [Char.isDigit, ge_iff_le, Bool.and_eq_true, decide_eq_true_eq] at h
  exact ⟨UInt32.le_toNat_of_le (by decide) h.1, UInt32.toNat_le_of_le (by decide) h.2⟩

theorem charDigit_lt {c : Char} (h : c.isDigit = true) : charDigit c < 10 := by
  have := isDigit_toNat h
  unfold charDigit
  omega

theorem digitChar_charDigit {c : Char} (h : c.isDigit = true) :
    Nat.digitChar (charDigit c) = c := by
  have hb := isDigit_toNat h
  have key : ∀ k : Nat, k < 58 → 48 ≤ k → Nat.digitChar (k - 48) = Char.ofNat k := by decide
  have hk := key c.toNat (by omega) (by omega)
  unfold charDigit
  rw [hk, Char.ofNat_toNat]

theorem digit_ne_space {c : Char} (h : c.isDigit = true) : ¬ c = ' ' := by
  intro he
  rw [he] at h
  exact absurd h (by decide)

theorem digit_ne_minus {c : Char} (h : c.isDigit = true) : ¬ c = '-' := by
  intro he
  rw [he] at h
  exact absurd h (by decide)

theorem digit_ne_plus {c : Char} (h : c.isDigit = true) : ¬ c = '+' := by
  intro he
  rw [he] at h
  exact absurd h (by decide)

/-! ### Zero-padded decimal renderings -/

theorem natDigitsLE_padded : ∀ k n : Nat, 1 ≤ k → n < 10 ^ k →
    natDigitsLE (n + 1) n ++ List.replicate (k - (natDigitsLE (n + 1) n).length) 0
      = (List.range k).map (fun i => n / 10 ^ i % 10) := by
  intro k
  induction k with
  | zero => intro n h1; omega
  | succ k ih =>
    intro n _ hn
    by_cases h10 : n < 10
    · have hLE : natDigitsLE (n + 1) n = [n] := by
        unfold natDigitsLE
        simp [h10]
      rw [hLE, List.range_succ_eq_map]
      simp only [List.map_cons, List.map_map, List.cons_append, List.length_cons,
        List.length_nil, List.nil_append]
      have hf0 : n / 10 ^ 0 % 10 = n := by
        simp
        omega
      rw [hf0]
      congr 1
      have hk0 : k + 1 - (0 + 1) = k := by omega
      rw [hk0]
      have hall : ∀ i ∈ List.range k, ((fun i => n / 10 ^ i % 10) ∘ Nat.succ) i = 0 := by
        intro i _
        simp only [Function.comp, Nat.succ_eq_add_one]
        have hz : n / 10 ^ (i + 1) = 0 := by
          apply Nat.div_eq_of_lt
          calc n < 10 := h10
            _ ≤ 10 ^ (i + 1) := by
              calc (10:Nat) = 10 ^ 1 := by norm_num
                _ ≤ 10 ^ (i + 1) := Nat.pow_le_pow_right (by norm_num) (by omega)
        rw [hz]
      symm
      calc List.map ((fun i => n / 10 ^ i % 10) ∘ Nat.succ) (List.range k)
          = List.map (fun _ => (0 : Nat)) (List.range k) := List.map_congr_left hall
        _ = List.replicate k 0 := by simp
    · have hk1 : 1 ≤ k := by
        rcases Nat.eq_zero_or_pos k with h0 | h0
        · subst h0
          norm_num at hn
          omega
        · exact h0
      have hstep : natDigitsLE (n + 1) n = n % 10 :: natDigitsLE (n / 10 + 1) (n / 10) := by
        conv_lhs => unfold natDigitsLE
        simp only [if_neg h10]
        rw [natDigitsLE_fuel n (n / 10 + 1) (n / 10) (by omega) (by omega)]
      have hdiv : n / 10 < 10 ^ k := by
        have hp : (10:Nat) ^ (k + 1) = 10 ^ k * 10 := pow_succ 10 k
        rw [hp] at hn
        exact Nat.div_lt_of_lt_mul (by omega)
      have hrec := ih (n / 10) hk1 hdiv
      rw [hstep, List.range_succ_eq_map]
      simp only [List.map_cons, List.map_map, List.cons_append, List.length_cons]
      congr 1
      · simp
      · have heq : (k + 1) - ((natDigitsLE (n / 10 + 1) (n / 10)).length + 1)
            = k - (natDigitsLE (n / 10 + 1) (n / 10)).length := by omega
        rw [heq, hrec]
        apply List.map_congr_left
        intro i _
        simp only [Function.comp]
        have : n / 10 ^ (i + 1) = n / 10 / 10 ^ i := by
          rw [Nat.div_div_eq_div_mul]
          congr 1
          rw [pow_succ]
          ring
        rw [this]

theorem padStart_data (s : String) (k : Nat) (c : Char) :
    (padStart s k c).data = List.replicate (k - s.data.length) c ++ s.data := rfl

theorem jsStringOfNat_data (n : Nat) :
    (jsStringOfNat n).data = ((natDigitsLE (n + 1) n).reverse).map Nat.digitChar := rfl

theorem padStart_digits (k n : Nat) (h1 : 1 ≤ k) (h : n < 10 ^ k) :
    (padStart (jsStringOfNat n) k '0').data
      = ((List.range k).map (fun i => Nat.digitChar (n / 10 ^ i % 10))).reverse := by
  rw [padStart_data, jsStringOfNat_data]
  have hpad := natDigitsLE_padded k n h1 h
  have hmap : ((List.range k).map (fun i => n / 10 ^ i % 10)).map Nat.digitChar
      = (List.range k).map (fun i => Nat.digitChar (n / 10 ^ i % 10)) := by
    rw [List.map_map]
    rfl
  rw [← hmap, ← hpad]
  rw [List.map_append, List.reverse_append]
  simp [List.map_reverse, List.length_map, List.length_reverse,
    show Nat.digitChar 0 = '0' from rfl]

/-! ### Number parsing on digit strings -/

theorem dropWhile_space_digits (l : List Char) (hd : l.all Char.isDigit = true) :
    l.dropWhile (· = ' ') = l := by
  cases l with
  | nil => rfl
  | cons c r =>
    simp only [List.all_cons, Bool.and_eq_true] at hd
    rw [List.dropWhile_cons]
    simp [digit_ne_space hd.1]

theorem takeWhile_digits (l : List Char) (hd : l.all Char.isDigit = true) :
    l.takeWhile Char.isDigit = l := by
  induction l with
  | nil => rfl
  | cons c r ih =>
    simp only [List.all_cons, Bool.and_eq_true] at hd
    rw [List.takeWhile_cons]
    simp [hd.1, ih hd.2]

theorem jsNumber_digits (l : List Char) (hne : l ≠ []) (hd : l.all Char.isDigit = true) :
    jsNumber (String.mk l) = some ((digitsVal l : Nat) : Int) := by
  have hrev : l.reverse.all Char.isDigit = true := by
    rw [List.all_reverse]
    exact hd
  have ht : ((l.dropWhile (· = ' ')).reverse.dropWhile (· = ' ')).reverse = l := by
    rw [dropWhile_space_digits l hd, dropWhile_space_digits l.reverse hrev,
      List.reverse_reverse]
  show (match ((String.mk l).data.dropWhile (· = ' ')).reverse.dropWhile (· = ' ') |>.reverse with
    | [] => some 0
    | c :: r =>
      if c = '-' then
        if r ≠ [] ∧ r.all Char.isDigit then some (-(digitsVal r : Int)) else none
      else if c = '+' then
        if r ≠ [] ∧ r.all Char.isDigit then some ((digitsVal r : Int)) else none
      else if (c :: r).all Char.isDigit then some ((digitsVal (c :: r) : Int)) else none)
    = some ((digitsVal l : Nat) : Int)
  rw [show (String.mk l).data = l from rfl, ht]
  cases l with
  | nil => exact absurd rfl hne
  | cons c r =>
    simp only [List.all_cons, Bool.and_eq_true] at hd
    show (if c = '-' then
        if r ≠ [] ∧ r.all Char.isDigit then some (-(digitsVal r : Int)) else none
      else if c = '+' then
        if r ≠ [] ∧ r.all Char.isDigit then some ((digitsVal r : Int)) else none
      else if (c :: r).all Char.isDigit then some ((digitsVal (c :: r) : Int)) else none)
      = some ((digitsVal (c :: r) : Nat) : Int)
    rw [if_neg (digit_ne_minus hd.1), if_neg (digit_ne_plus hd.1),
      if_pos (by simp [List.all_cons, hd.1, hd.2])]

theorem parseIntDec_digits (l : List Char) (hne : l ≠ []) (hd : l.all Char.isDigit = true) :
    parseIntDec (String.mk l) = some ((digitsVal l : Nat) : Int) := by
  unfold parseIntDec
  rw [show (String.mk l).data = l from rfl, dropWhile_space_digits l hd]
  cases l with
  | nil => exact absurd rfl hne
  | cons c r =>
    simp only [List.all_cons, Bool.and_eq_true] at hd
    simp only [if_neg (digit_ne_minus hd.1), if_neg (digit_ne_plus hd.1)]
    rw [takeWhile_digits (c :: r) (by simp [List.all_cons, hd.1, hd.2])]
    rw [if_pos (by simp)]
    simp

/-! ### Explicit digit expansions of the padded fields -/

theorem string_eq_of_data {a b : String} (h : a.data = b.data) : a = b := by
  cases a
  cases b
  exact congrArg String.mk h

theorem data_append (a b : String) : (a ++ b).data = a.data ++ b.data := rfl

theorem pad4_explicit (y : Nat) (h : y < 10000) :
    (padStart (jsStringOfNat y) 4 '0').data
      = [Nat.digitChar (y / 1000 % 10), Nat.digitChar (y / 100 % 10),
         Nat.digitChar (y / 10 % 10), Nat.digitChar (y % 10)] := by
  rw [padStart_digits 4 y (by norm_num) (by norm_num; omega)]
  rw [show List.range 4 = [0, 1, 2, 3] from rfl]
  simp only [List.map_cons, List.map_nil, List.reverse_cons, List.reverse_nil,
    List.nil_append, List.cons_append]
  norm_num

theorem pad2_explicit (m : Nat) (h : m < 100) :
    (padStart (jsStringOfNat m) 2 '0').data
      = [Nat.digitChar (m / 10 % 10), Nat.digitChar (m % 10)] := by
  rw [padStart_digits 2 m (by norm_num) (by norm_num; omega)]
  rw [show List.range 2 = [0, 1] from rfl]
  simp only [List.map_cons, List.map_nil, List.reverse_cons, List.reverse_nil,
    List.nil_append, List.cons_append]
  norm_num

theorem pad8_explicit (n : Nat) (h : n < 100000000) :
    (padStart (jsStringOfNat n) 8 '0').data
      = [Nat.digitChar (n / 10000000 % 10), Nat.digitChar (n / 1000000 % 10),
         Nat.digitChar (n / 100000 % 10), Nat.digitChar (n / 10000 % 10),
         Nat.digitChar (n / 1000 % 10), Nat.digitChar (n / 100 % 10),
         Nat.digitChar (n / 10 % 10), Nat.digitChar (n % 10)] := by
  rw [padStart_digits 8 n (by norm_num) (by norm_num; omega)]
  rw [show List.range 8 = [0, 1, 2, 3, 4, 5, 6, 7] from rfl]
  simp only [List.map_cons, List.map_nil, List.reverse_cons, List.reverse_nil,
    List.nil_append, List.cons_append]
  norm_num

theorem digitsVal_map_digitChar (xs : List Nat) (h : ∀ x ∈ xs, x < 10) :
    digitsVal (xs.map Nat.digitChar) = valLE xs.reverse := by
  unfold digitsVal
  have hmap : (xs.map Nat.digitChar).map charDigit = xs := by
    rw [List.map_map]
    calc xs.map (charDigit ∘ Nat.digitChar)
        = xs.map id := List.map_congr_left (fun x hx => (digitCharProps x (h x hx)).2.1)
      _ = xs := List.map_id xs
  rw [hmap]

theorem canonical_data (y m d : Nat) (hy : y < 10000) (hm : m < 100) (hd : d < 100) :
    (canonicalString y m d).data
      = [Nat.digitChar (y / 1000 % 10), Nat.digitChar (y / 100 % 10),
         Nat.digitChar (y / 10 % 10), Nat.digitChar (y % 10), '-',
         Nat.digitChar (m / 10 % 10), Nat.digitChar (m % 10), '-',
         Nat.digitChar (d / 10 % 10), Nat.digitChar (d % 10)] := by
  unfold canonicalString
  simp only [data_append, pad4_explicit y hy, pad2_explicit m hm, pad2_explicit d hd]
  rfl

theorem jsNumber_four (a b c e : Nat) (ha : a < 10) (hb : b < 10) (hc : c < 10)
    (he : e < 10) :
    jsNumber (String.mk [Nat.digitChar a, Nat.digitChar b, Nat.digitChar c, Nat.digitChar e])
      = some (((a * 1000 + b * 100 + c * 10 + e : Nat)) : Int) := by
  have hlist : [Nat.digitChar a, Nat.digitChar b, Nat.digitChar c, Nat.digitChar e]
      = [a, b, c, e].map Nat.digitChar := rfl
  have hall : [Nat.digitChar a, Nat.digitChar b, Nat.digitChar c, Nat.digitChar e].all
      Char.isDigit = true := by
    simp [List.all_cons, (digitCharProps a ha).1, (digitCharProps b hb).1,
      (digitCharProps c hc).1, (digitCharProps e he).1]
  rw [jsNumber_digits _ (by simp) hall]
  rw [hlist, digitsVal_map_digitChar [a, b, c, e] (by intro x hx; simp at hx; omega)]
  have hv : valLE [a, b, c, e].reverse = a * 1000 + b * 100 + c * 10 + e := by
    show valLE [e, c, b, a] = _
    simp only [valLE]
    omega
  rw [hv]

theorem jsNumber_two (a b : Nat) (ha : a < 10) (hb : b < 10) :
    jsNumber (String.mk [Nat.digitChar a, Nat.digitChar b])
      = some (((a * 10 + b : Nat)) : Int) := by
  have hlist : [Nat.digitChar a, Nat.digitChar b] = [a, b].map Nat.digitChar := rfl
  have hall : [Nat.digitChar a, Nat.digitChar b].all Char.isDigit = true := by
    simp [List.all_cons, (digitCharProps a ha).1, (digitCharProps b hb).1]
  rw [jsNumber_digits _ (by simp) hall]
  rw [hlist, digitsVal_map_digitChar [a, b] (by intro x hx; simp at hx; omega)]
  have hv : valLE [a, b].reverse = a * 10 + b := by
    show valLE [b, a] = _
    simp only [valLE]
    omega
  rw [hv]

theorem fromString_shape10 (s : String) (y m d : Int) (h10 : s.length = 10)
    (h4 : s.data.get? 4 = some '-') (h7 : s.data.get? 7 = some '-')
    (hy : extractInt s 0 4 = some y) (hm : extractInt s 5 2 = some m)
    (hd : extractInt s 8 2 = some d) :
    fromString s = create y m d := by
  simp only [fromString]
  rw [if_pos ⟨h10, h4, h7⟩, hy, hm, hd]

theorem fromString_canonical (y m d : Nat) (hy1 : 1 ≤ y) (hy : y ≤ 9999)
    (hm1 : 1 ≤ m) (hm : m ≤ 12) (hd1 : 1 ≤ d) (hdd : d ≤ 31) :
    fromString (canonicalString y m d) = create (y : Int) (m : Int) (d : Int) := by
  have hdata := canonical_data y m d (by omega) (by omega) (by omega)
  have hlen : (canonicalString y m d).length = 10 := by
    show (canonicalString y m d).data.length = 10
    rw [hdata]
    rfl
  have hget4 : (canonicalString y m d).data.get? 4 = some '-' := by
    rw [hdata]
    rfl
  have hget7 : (canonicalString y m d).data.get? 7 = some '-' := by
    rw [hdata]
    rfl
  have hsub0 : jsSubstring (canonicalString y m d) 0 4
      = String.mk [Nat.digitChar (y / 1000 % 10), Nat.digitChar (y / 100 % 10),
          Nat.digitChar (y / 10 % 10), Nat.digitChar (y % 10)] := by
    unfold jsSubstring
    rw [hdata]
    rfl
  have hsub5 : jsSubstring (canonicalString y m d) 5 2
      = String.mk [Nat.digitChar (m / 10 % 10), Nat.digitChar (m % 10)] := by
    unfold jsSubstring
    rw [hdata]
    rfl
  have hsub8 : jsSubstring (canonicalString y m d) 8 2
      = String.mk [Nat.digitChar (d / 10 % 10), Nat.digitChar (d % 10)] := by
    unfold jsSubstring
    rw [hdata]
    rfl
  have hY : extractInt (canonicalString y m d) 0 4 = some ((y : Nat) : Int) := by
    unfold extractInt
    rw [hsub0, jsNumber_four _ _ _ _ (by omega) (by omega) (by omega) (by omega)]
    have hv : y / 1000 % 10 * 1000 + y / 100 % 10 * 100 + y / 10 % 10 * 10 + y % 10 = y := by
      omega
    rw [hv]
  have hM : extractInt (canonicalString y m d) 5 2 = some ((m : Nat) : Int) := by
    unfold extractInt
    rw [hsub5, jsNumber_two _ _ (by omega) (by omega)]
    have hv : m / 10 % 10 * 10 + m % 10 = m := by omega
    rw [hv]
  have hD : extractInt (canonicalString y m d) 8 2 = some ((d : Nat) : Int) := by
    unfold extractInt
    rw [hsub8, jsNumber_two _ _ (by omega) (by omega)]
    have hv : d / 10 % 10 * 10 + d % 10 = d := by omega
    rw [hv]
  exact fromString_shape10 _ _ _ _ hlen hget4 hget7 hY hM hD

theorem jsStringOfNat_small (m : Nat) (h : m < 10) :
    (jsStringOfNat m).data = [Nat.digitChar m] := by
  rw [jsStringOfNat_data]
  rw [show natDigitsLE (m + 1) m = [m] from by unfold natDigitsLE; simp [h]]
  rfl

theorem jsStringOfNat_mid (m : Nat) (h1 : 10 ≤ m) (h : m < 100) :
    (jsStringOfNat m).data = [Nat.digitChar (m / 10), Nat.digitChar (m % 10)] := by
  rw [jsStringOfNat_data]
  have hstep : natDigitsLE (m + 1) m = m % 10 :: natDigitsLE (m / 10 + 1) (m / 10) := by
    conv_lhs => unfold natDigitsLE
    simp only [if_neg (by omega : ¬ m < 10)]
    rw [natDigitsLE_fuel m (m / 10 + 1) (m / 10) (by omega) (by omega)]
  rw [hstep, show natDigitsLE (m / 10 + 1) (m / 10) = [m / 10] from by
    unfold natDigitsLE
    simp [show m / 10 < 10 from by omega]]
  rfl

theorem two_digit_piece (m : Nat) (h : m < 100) (X : List Char) :
    ((if m < 10 then "-0" else "-") : String).data ++ ((jsStringOfNat m).data ++ X)
      = '-' :: Nat.digitChar (m / 10 % 10) :: Nat.digitChar (m % 10) :: X := by
  by_cases h10 : m < 10
  · rw [if_pos h10, jsStringOfNat_small m h10]
    have e1 : m / 10 % 10 = 0 := by omega
    have e2 : m % 10 = m := by omega
    rw [e1, e2]
    rfl
  · rw [if_neg h10, jsStringOfNat_mid m (by omega) h]
    have e1 : m / 10 % 10 = m / 10 := by omega
    rw [e1]
    rfl

theorem toStr_data (v : Nat) (hy : yearOf v < 10000) (hm : monthOf v < 100)
    (hd : dayOf v < 100) :
    (toStr v).data
      = [Nat.digitChar (yearOf v / 1000 % 10), Nat.digitChar (yearOf v / 100 % 10),
         Nat.digitChar (yearOf v / 10 % 10), Nat.digitChar (yearOf v % 10), '-',
         Nat.digitChar (monthOf v / 10 % 10), Nat.digitChar (monthOf v % 10), '-',
         Nat.digitChar (dayOf v / 10 % 10), Nat.digitChar (dayOf v % 10)] := by
  unfold toStr
  simp only [data_append, List.append_assoc]
  rw [show (jsStringOfNat (dayOf v)).data
      = (jsStringOfNat (dayOf v)).data ++ [] from (List.append_nil _).symm]
  rw [two_digit_piece (dayOf v) hd, two_digit_piece (monthOf v) hm,
    pad4_explicit (yearOf v) hy]
  rfl

theorem toStr_eq_canonical (v : Nat) (h1 : 366 ≤ v) (h2 : v ≤ 3652424) :
    toStr v = canonicalString (yearOf v) (monthOf v) (dayOf v) := by
  obtain ⟨hy0, hy9, hga, hgb⟩ := yearOf_correct h1 h2
  obtain ⟨hm1, hm2, hc1, hc2⟩ := monthOf_spec h1 h2
  obtain ⟨hdeq, hd1, hd2⟩ := dayOf_spec h1 h2
  have hdub : dayOf v ≤ 31 := by
    have := cumDiff_ge (isLeapYearN (yearOf v)) (monthOf v) hm1 hm2
    have hub : ∀ leap : Bool, ∀ mm : Nat, 1 ≤ mm → mm ≤ 12 →
        cumDays leap (mm + 1) - cumDays leap mm ≤ 31 := by
      intro leap
      cases leap <;> decide
    have := hub (isLeapYearN (yearOf v)) (monthOf v) hm1 hm2
    omega
  apply string_eq_of_data
  rw [toStr_data v (by omega) (by omega) (by omega),
    canonical_data (yearOf v) (monthOf v) (dayOf v) (by omega) (by omega) (by omega)]

theorem cumDiff_le31 (leap : Bool) :
    ∀ m : Nat, 1 ≤ m → m ≤ 12 → cumDays leap (m + 1) - cumDays leap m ≤ 31 := by
  cases leap <;> decide

/-- C6: `toString` renders every valid date as the 10-character zero-padded
`YYYY-MM-DD` string of its accessors, `fromString` recovers the date from its
own rendering, and every canonical-format string is parsed by `fromString` to
a date that renders back to the same string. -/
theorem claim_C6 :
    (∀ v : Nat, 366 ≤ v → v ≤ 3652424 →
      (toStr v).length = 10 ∧
      toStr v = canonicalString (yearOf v) (monthOf v) (dayOf v) ∧
      fromString (toStr v) = Except.ok v) ∧
    (∀ s : String, IsCanonical s →
      ∃ v : Nat, 366 ≤ v ∧ v ≤ 3652424 ∧ fromString s = Except.ok v ∧ toStr v = s) := by
  constructor
  · intro v h1 h2
    have hcan := toStr_eq_canonical v h1 h2
    obtain ⟨hy0, hy9, hga, hgb⟩ := yearOf_correct h1 h2
    obtain ⟨hm1, hm2, hc1, hc2⟩ := monthOf_spec h1 h2
    obtain ⟨hdeq, hd1, hd2⟩ := dayOf_spec h1 h2
    have hd31 : dayOf v ≤ 31 := by
      have := cumDiff_le31 (isLeapYearN (yearOf v)) (monthOf v) hm1 hm2
      omega
    refine ⟨?_, hcan, ?_⟩
    · show (toStr v).data.length = 10
      rw [hcan,
        canonical_data (yearOf v) (monthOf v) (dayOf v) (by omega) (by omega) (by omega)]
      rfl
    · rw [hcan, fromString_canonical (yearOf v) (monthOf v) (dayOf v) (by omega) (by omega)
        hm1 hm2 hd1 hd31]
      exact roundtrip h1 h2
  · intro s hs
    obtain ⟨y, m, d, hy1, hy2, hm1, hm2, hd1, hd2, hseq⟩ := hs
    obtain ⟨he1, he2, hey, hem, hed, hec⟩ := decode_encode y m d hy1 hy2 hm1 hm2 hd1 hd2
    have hd31 : d ≤ 31 := by
      have := cumDiff_le31 (isLeapYearN y) m hm1 hm2
      omega
    refine ⟨encodeVal y m d, he1, he2, ?_, ?_⟩
    · rw [hseq, fromString_canonical y m d hy1 hy2 hm1 hm2 hd1 hd31]
      exact hec
    · rw [toStr_eq_canonical (encodeVal y m d) he1 he2, hey, hem, hed, hseq]

theorem claim_C6_witness :
    fromString (toStr 730850) = Except.ok 730850 ∧
    (∃ v : Nat, 366 ≤ v ∧ v ≤ 3652424 ∧ fromString "2000-12-31" = Except.ok v ∧
      toStr v = "2000-12-31") := by
  constructor
  · exact (claim_C6.1 730850 (by decide) (by decide)).2.2
  · exact claim_C6.2 "2000-12-31"
      ⟨2000, 12, 31, by decide, by decide, by decide, by decide, by decide, by decide,
        by decide⟩

/-- C7 (corrected): `fromString` dispatches only on the two shapes — length 10
with hyphens at positions 4 and 7, or length 8.  A string of any other shape
raises the parse-format error, as does either shape when a year/month/day
field does not coerce to a number; the four sample strings all raise it.  The
original claim's requirement that the length-8 shape be all digits is refuted
by `claim_C7_counterexample`. -/
theorem claim_C7 :
    (∀ s : String,
        ¬ (s.length = 10 ∧ s.data.get? 4 = some '-' ∧ s.data.get? 7 = some '-') →
        s.length ≠ 8 →
        fromString s = Except.error DateError.parseFormat) ∧
    (∀ s : String,
        (s.length = 10 ∧ s.data.get? 4 = some '-' ∧ s.data.get? 7 = some '-') →
        extractInt s 0 4 = none ∨ extractInt s 5 2 = none ∨ extractInt s 8 2 = none →
        fromString s = Except.error DateError.parseFormat) ∧
    (∀ s : String,
        ¬ (s.length = 10 ∧ s.data.get? 4 = some '-' ∧ s.data.get? 7 = some '-') →
        s.length = 8 →
        extractInt s 0 4 = none ∨ extractInt s 4 2 = none ∨ extractInt s 6 2 = none →
        fromString s = Except.error DateError.parseFormat) ∧
    fromString "hello" = Except.error DateError.parseFormat ∧
    fromString "2016,01,01" = Except.error DateError.parseFormat ∧
    fromString "05/05/05" = Except.error DateError.parseFormat ∧
    fromString "2016-o1-o1" = Except.error DateError.parseFormat := by
  refine ⟨?_, ?_, ?_, rfl, rfl, rfl, rfl⟩
  · intro s hn h8
    simp only [fromString]
    rw [if_neg hn, if_neg h8]
    rcases extractInt s 0 4 with _ | y <;> rfl
  · intro s hsh hnone
    simp only [fromString]
    rw [if_pos hsh]
    rcases hnone with h | h | h
    · rw [h]
    · rw [h]
      rcases extractInt s 0 4 with _ | y <;> rfl
    · rw [h]
      rcases extractInt s 0 4 with _ | y
      · rfl
      · rcases extractInt s 5 2 with _ | z <;> rfl
  · intro s hn h8 hnone
    simp only [fromString]
    rw [if_neg hn, if_pos h8]
    rcases hnone with h | h | h
    · rw [h]
    · rw [h]
      rcases extractInt s 0 4 with _ | y <;> rfl
    · rw [h]
      rcases extractInt s 0 4 with _ | y
      · rfl
      · rcases extractInt s 4 2 with _ | z <;> rfl

theorem claim_C7_witness :
    fromString "abc" = Except.error DateError.parseFormat ∧
    fromString "2016-01-0x" = Except.error DateError.parseFormat ∧
    fromString "2016010x" = Except.error DateError.parseFormat := by
  refine ⟨claim_C7.1 "abc" (by decide) (by decide), ?_, ?_⟩
  · exact claim_C7.2.1 "2016-01-0x" (by decide) (Or.inr (Or.inr (by decide)))
  · exact claim_C7.2.2.1 "2016010x" (by decide) (by decide) (Or.inr (Or.inr (by decide)))

/-- C7 counterexample: `"2016 111"` has length 8 and is not all digits, yet
`fromString` accepts it as 2016-01-11 because `Number` trims the space inside
the month field — the length-8 shape does not require all-digit input. -/
theorem claim_C7_counterexample :
    "2016 111".length = 8 ∧ "2016 111".data.all Char.isDigit = false ∧
    fromString "2016 111" = Except.ok 736339 := ⟨rfl, by decide, rfl⟩

theorem cons_of_len {α : Type} (l : List α) (n : Nat) (h : l.length = n + 1) :
    ∃ c t, l = c :: t ∧ t.length = n := by
  cases l with
  | nil =>
    rw [List.length_nil] at h
    omega
  | cons c t =>
    refine ⟨c, t, rfl, ?_⟩
    rw [List.length_cons] at h
    omega

/-- C8 (corrected): on length-8 all-digit strings the two `fromString`
variants agree — the re-serialization guard of the `part_000` variant holds
automatically there, and `Number` and `parseInt` extract the same field
values.  On other length-8 strings they can differ (`claim_C8_counterexample`),
so the claimed extensional equality is restricted to the all-digit case. -/
theorem claim_C8 (s : String) (h8 : s.length = 8)
    (hdig : s.data.all Char.isDigit = true) :
    fromString s = fromStringB s := by
  have hlen : s.data.length = 8 := h8
  obtain ⟨c0, t0, he0, hl0⟩ := cons_of_len s.data 7 hlen
  obtain ⟨c1, t1, he1, hl1⟩ := cons_of_len t0 6 hl0
  obtain ⟨c2, t2, he2, hl2⟩ := cons_of_len t1 5 hl1
  obtain ⟨c3, t3, he3, hl3⟩ := cons_of_len t2 4 hl2
  obtain ⟨c4, t4, he4, hl4⟩ := cons_of_len t3 3 hl3
  obtain ⟨c5, t5, he5, hl5⟩ := cons_of_len t4 2 hl4
  obtain ⟨c6, t6, he6, hl6⟩ := cons_of_len t5 1 hl5
  obtain ⟨c7, t7, he7, hl7⟩ := cons_of_len t6 0 hl6
  have ht7 : t7 = [] := List.eq_nil_of_length_eq_zero hl7
  have hds : s.data = [c0, c1, c2, c3, c4, c5, c6, c7] := by
    rw [he0, he1, he2, he3, he4, he5, he6, he7, ht7]
  rw [hds] at hdig
  simp only [List.all_cons, List.all_nil, Bool.and_eq_true] at hdig
  obtain ⟨h0, h1, h2, h3, h4, h5, h6, ⟨h7, -⟩⟩ := hdig
  have hv0 := charDigit_lt h0
  have hv1 := charDigit_lt h1
  have hv2 := charDigit_lt h2
  have hv3 := charDigit_lt h3
  have hv4 := charDigit_lt h4
  have hv5 := charDigit_lt h5
  have hv6 := charDigit_lt h6
  have hv7 := charDigit_lt h7
  have hval : digitsVal [c0, c1, c2, c3, c4, c5, c6, c7]
      = charDigit c7 + 10 * (charDigit c6 + 10 * (charDigit c5 + 10 * (charDigit c4
        + 10 * (charDigit c3 + 10 * (charDigit c2 + 10 * (charDigit c1
        + 10 * (charDigit c0 + 10 * 0))))))) := rfl
  have hn8 : digitsVal [c0, c1, c2, c3, c4, c5, c6, c7] < 100000000 := by
    rw [hval]
    omega
  have hsubY : jsSubstring s 0 4 = String.mk [c0, c1, c2, c3] := by
    unfold jsSubstring
    rw [hds]
    rfl
  have hsubM : jsSubstring s 4 2 = String.mk [c4, c5] := by
    unfold jsSubstring
    rw [hds]
    rfl
  have hsubD : jsSubstring s 6 2 = String.mk [c6, c7] := by
    unfold jsSubstring
    rw [hds]
    rfl
  have hY : extractInt s 0 4 = some ((digitsVal [c0, c1, c2, c3] : Nat) : Int) := by
    unfold extractInt
    rw [hsubY, jsNumber_digits _ (by simp) (by simp [List.all_cons, h0, h1, h2, h3])]
  have hM : extractInt s 4 2 = some ((digitsVal [c4, c5] : Nat) : Int) := by
    unfold extractInt
    rw [hsubM, jsNumber_digits _ (by simp) (by simp [List.all_cons, h4, h5])]
  have hD : extractInt s 6 2 = some ((digitsVal [c6, c7] : Nat) : Int) := by
    unfold extractInt
    rw [hsubD, jsNumber_digits _ (by simp) (by simp [List.all_cons, h6, h7])]
  have hYb : parseIntDec (jsSubstring s 0 4) = some ((digitsVal [c0, c1, c2, c3] : Nat) : Int) := by
    rw [hsubY]
    exact parseIntDec_digits _ (by simp) (by simp [List.all_cons, h0, h1, h2, h3])
  have hMb : parseIntDec (jsSubstring s 4 2) = some ((digitsVal [c4, c5] : Nat) : Int) := by
    rw [hsubM]
    exact parseIntDec_digits _ (by simp) (by simp [List.all_cons, h4, h5])
  have hDb : parseIntDec (jsSubstring s 6 2) = some ((digitsVal [c6, c7] : Nat) : Int) := by
    rw [hsubD]
    exact parseIntDec_digits _ (by simp) (by simp [List.all_cons, h6, h7])
  have hPs : parseIntDec s
      = some ((digitsVal [c0, c1, c2, c3, c4, c5, c6, c7] : Nat) : Int) := by
    rw [string_eq_of_data (a := s) (b := String.mk [c0, c1, c2, c3, c4, c5, c6, c7]) hds]
    exact parseIntDec_digits _ (by simp)
      (by simp [List.all_cons, h0, h1, h2, h3, h4, h5, h6, h7])
  have hguard : (match parseIntDec s with
      | some n => padStart (jsStringOfInt n) 8 '0'
      | none => padStart "NaN" 8 '0') = s := by
    rw [hPs]
    show padStart (jsStringOfInt ((digitsVal [c0, c1, c2, c3, c4, c5, c6, c7] : Nat) : Int))
        8 '0' = s
    have hjs : jsStringOfInt ((digitsVal [c0, c1, c2, c3, c4, c5, c6, c7] : Nat) : Int)
        = jsStringOfNat (digitsVal [c0, c1, c2, c3, c4, c5, c6, c7]) := by
      unfold jsStringOfInt
      rw [if_neg (by omega)]
      exact congrArg jsStringOfNat (by omega)
    rw [hjs]
    apply string_eq_of_data
    rw [pad8_explicit _ hn8, hds]
    rw [show digitsVal [c0, c1, c2, c3, c4, c5, c6, c7] / 10000000 % 10 = charDigit c0
        from by omega,
      show digitsVal [c0, c1, c2, c3, c4, c5, c6, c7] / 1000000 % 10 = charDigit c1
        from by omega,
      show digitsVal [c0, c1, c2, c3, c4, c5, c6, c7] / 100000 % 10 = charDigit c2
        from by omega,
      show digitsVal [c0, c1, c2, c3, c4, c5, c6, c7] / 10000 % 10 = charDigit c3
        from by omega,
      show digitsVal [c0, c1, c2, c3, c4, c5, c6, c7] / 1000 % 10 = charDigit c4
        from by omega,
      show digitsVal [c0, c1, c2, c3, c4, c5, c6, c7] / 100 % 10 = charDigit c5
        from by omega,
      show digitsVal [c0, c1, c2, c3, c4, c5, c6, c7] / 10 % 10 = charDigit c6
        from by omega,
      show digitsVal [c0, c1, c2, c3, c4, c5, c6, c7] % 10 = charDigit c7
        from by omega,
      digitChar_charDigit h0, digitChar_charDigit h1, digitChar_charDigit h2,
      digitChar_charDigit h3, digitChar_charDigit h4, digitChar_charDigit h5,
      digitChar_charDigit h6, digitChar_charDigit h7]
  have hno : ¬ (s.length = 10 ∧ s.data.get? 4 = some '-' ∧ s.data.get? 7 = some '-') := by
    intro hc
    have := hc.1
    omega
  simp only [fromString, fromStringB]
  rw [if_neg hno, if_neg hno, if_pos h8, if_pos ⟨h8, hguard⟩, hY, hM, hD, hYb, hMb, hDb]

theorem claim_C8_witness :
    fromString "20160101" = fromStringB "20160101" ∧
    fromString "20160101" = Except.ok 736329 := by
  constructor
  · exact claim_C8 "20160101" (by decide) (by decide)
  · rfl

/-- C8 counterexample: `"2016011 "` (trailing space) has length 8 but is not
all digits; the `src/CalendarDate.ts` variant parses it to 2016-01-01 because
`Number` trims the field's whitespace, while the `src/unnamed/part_000`
variant rejects it — its guard re-serializes `parseInt("2016011 ")` to
`"02016011"`, which differs from the input.  The two variants are therefore
not extensionally equal on all length-8 strings. -/
theorem claim_C8_counterexample :
    "2016011 ".length = 8 ∧
    fromString "2016011 " = Except.ok 736329 ∧
    fromStringB "2016011 " = Except.error DateError.parseFormat := ⟨rfl, rfl, rfl⟩
